import Mathlib

/-!
kmbridge: in-kernel IGMP proxy.

A shallow embedding of `router.c`, `igmp.c` and `kmbridge.c` and the
properties of the route table, the IGMP query builder and the two netfilter
hooks.

Conventions of the embedding.

* Machine integers are natural numbers.  A `__be32`/`__be16` value is the
  host integer the C variable holds, so the same on-wire address is a
  different number on a little-endian and on a big-endian host; `Endian`
  selects the host and `htonl`/`ntohl`/`htons` convert as the kernel macros do.
* Memory is a list of bytes.  `store16`/`store32` give the bytes a host
  integer occupies in memory, `load16`/`load32` read them back.
* Kernel services the module calls but does not define (allocation, packet
  validation, hook registration, group join) are results supplied by a
  `Kernel` record; each call that is visible outside the module is recorded in
  the `trace` of the module state, in program order.
* A dereference of a null pointer ends the run with `Fault.null_deref`.
* A run of the module is a list of deliveries to the two hooks; `trajectory`
  lists the states it goes through.
-/

namespace Kmbridge

/-! ## Byte order -/

/-- Byte order of the host CPU. -/
inductive Endian where
  | little
  | big
deriving DecidableEq, Repr

/-- Kernel `swab16`: exchange the two bytes of a 16-bit value. -/
def swab16 (x : Nat) : Nat :=
  (x % 256) * 256 + (x / 256) % 256

/-- Kernel `swab32`: reverse the four bytes of a 32-bit value. -/
def swab32 (x : Nat) : Nat :=
  (x % 256) * 16777216 + (x / 256 % 256) * 65536 + (x / 65536 % 256) * 256 + (x / 16777216) % 256

/-- Kernel `htonl`: host to network byte order, 32 bits. -/
def htonl (e : Endian) (x : Nat) : Nat :=
  match e with
  | .big => x
  | .little => swab32 x

/-- Kernel `ntohl`: network to host byte order, 32 bits. -/
def ntohl (e : Endian) (x : Nat) : Nat :=
  match e with
  | .big => x
  | .little => swab32 x

/-- Kernel `htons`: host to network byte order, 16 bits. -/
def htons (e : Endian) (x : Nat) : Nat :=
  match e with
  | .big => x
  | .little => swab16 x

/-- Kernel `ntohs`: network to host byte order, 16 bits. -/
def ntohs (e : Endian) (x : Nat) : Nat :=
  match e with
  | .big => x
  | .little => swab16 x

/-- The two bytes a 16-bit host integer occupies in memory, lowest address first. -/
def store16 (e : Endian) (v : Nat) : List Nat :=
  match e with
  | .big => [v / 256 % 256, v % 256]
  | .little => [v % 256, v / 256 % 256]

/-- The four bytes a 32-bit host integer occupies in memory, lowest address first. -/
def store32 (e : Endian) (v : Nat) : List Nat :=
  match e with
  | .big => [v / 16777216 % 256, v / 65536 % 256, v / 256 % 256, v % 256]
  | .little => [v % 256, v / 256 % 256, v / 65536 % 256, v / 16777216 % 256]

/-- The 16-bit host integer held by two bytes of memory. -/
def load16 (e : Endian) (b0 b1 : Nat) : Nat :=
  match e with
  | .big => b0 * 256 + b1
  | .little => b1 * 256 + b0

/-- The 32-bit host integer held by four bytes of memory. -/
def load32 (e : Endian) (b0 b1 b2 b3 : Nat) : Nat :=
  match e with
  | .big => b0 * 16777216 + b1 * 65536 + b2 * 256 + b3
  | .little => b3 * 16777216 + b2 * 65536 + b1 * 256 + b0

/-! ## Constants of the kernel headers -/

def NF_DROP : Nat := 0
def NF_ACCEPT : Nat := 1
def EINVAL : Int := 22
def ETH_P_IP : Nat := 0x0800
def IP_DF : Nat := 0x4000
def IPPROTO_IGMP : Nat := 2
def IPOPT_RA : Nat := 148
def INADDR_ALLHOSTS_GROUP : Nat := 0xe0000001
def INADDR_ALLRTRS_GROUP : Nat := 0xe0000002
def IGMP_HOST_MEMBERSHIP_QUERY : Nat := 0x11
def IGMP_HOST_MEMBERSHIP_REPORT : Nat := 0x12
def IGMPV2_HOST_MEMBERSHIP_REPORT : Nat := 0x16
def IGMP_HOST_LEAVE_MESSAGE : Nat := 0x17
def IGMP_TIMER_SCALE : Nat := 10
def INTERVAL_QUERY : Nat := 125
def INTERVAL_QUERY_RESPONSE : Nat := 10

/-- Kernel `ipv4_is_multicast`:
`(addr & htonl(0xf0000000)) == htonl(0xe0000000)` on a `__be32` address. -/
def ipv4_is_multicast (e : Endian) (addr : Nat) : Bool :=
  (addr &&& htonl e 0xf0000000) == htonl e 0xe0000000

/-- Kernel `ip_eth_mc_map`: the Ethernet multicast address of an IPv4 group
(`__be32 naddr`), six bytes. -/
def ip_eth_mc_map (e : Endian) (naddr : Nat) : List Nat :=
  let addr := ntohl e naddr
  [0x01, 0x00, 0x5e, (addr >>> 16) &&& 0x7F, (addr >>> 8) &&& 0xFF, addr &&& 0xFF]

/-! ## Internet checksum -/

/-- Sum of the big-endian 16-bit words of a buffer (an odd last byte is padded
with zero), the quantity the kernel checksum routines accumulate. -/
def csum_words : List Nat → Nat
  | [] => 0
  | [b] => b * 256
  | b0 :: b1 :: rest => b0 * 256 + b1 + csum_words rest

/-- Ones-complement sum of a buffer folded to 16 bits (the two folding steps of
`csum_fold`, before the final complement). -/
def csum_sum16 (buf : List Nat) : Nat :=
  let sum := csum_words buf
  let s1 := sum % 65536 + sum / 65536
  (s1 % 65536 + s1 / 65536) % 65536

/-- The Internet checksum of a buffer as a number in wire order: the
complement of the folded ones-complement sum. -/
def csum_wire (buf : List Nat) : Nat :=
  65535 - csum_sum16 buf

/-- Kernel `ip_compute_csum(buf, len)`: the `__sum16` whose bytes in memory
are the Internet checksum of the first `len` bytes. -/
def ip_compute_csum (e : Endian) (buf : List Nat) (len : Nat) : Nat :=
  htons e (csum_wire (buf.take len))

/-- Kernel `ip_fast_csum(iph, ihl)`: the `__sum16` checksum of `ihl` 32-bit
words of memory. -/
def ip_fast_csum (e : Endian) (mem : List Nat) (ihl : Nat) : Nat :=
  htons e (csum_wire (mem.take (ihl * 4)))

/-! ## Data model -/

/-- The fields of `struct net_device` the module reads. -/
structure net_device where
  ifindex : Nat
  dev_addr : List Nat
deriving DecidableEq, Repr

/-- Kernel `struct ethhdr`. -/
structure ethhdr where
  h_dest : List Nat
  h_source : List Nat
  h_proto : Nat
deriving DecidableEq, Repr

/-- Kernel `struct iphdr` (the fixed 20 bytes); multi-byte fields hold host integers. -/
structure iphdr where
  version : Nat
  ihl : Nat
  tos : Nat
  tot_len : Nat
  id : Nat
  frag_off : Nat
  ttl : Nat
  protocol : Nat
  check : Nat
  saddr : Nat
  daddr : Nat
deriving DecidableEq, Repr

/-- Kernel `struct igmphdr`; multi-byte fields hold host integers. -/
structure igmphdr where
  type : Nat
  code : Nat
  csum : Nat
  group : Nat
deriving DecidableEq, Repr

/-- The 20 bytes of a `struct iphdr` in memory. -/
def iphdr.bytes (e : Endian) (h : iphdr) : List Nat :=
  [(h.version % 16) * 16 + h.ihl % 16, h.tos % 256]
    ++ store16 e h.tot_len ++ store16 e h.id ++ store16 e h.frag_off
    ++ [h.ttl % 256, h.protocol % 256]
    ++ store16 e h.check ++ store32 e h.saddr ++ store32 e h.daddr

/-- The 8 bytes of a `struct igmphdr` in memory. -/
def igmphdr.bytes (e : Endian) (h : igmphdr) : List Nat :=
  [h.type % 256, h.code % 256] ++ store16 e h.csum ++ store32 e h.group

/-- The view of a socket buffer the module uses: the owning device, the
link header at `eth_hdr(skb)`, the IPv4 header at `ip_hdr(skb)`, the bytes
that follow the fixed IPv4 header up to the transport header (`&iph[1]`, the
IP options), the bytes at the transport header, and the `data`/`len` cursor
(`data` counted from the link header). -/
structure sk_buff where
  dev : net_device
  protocol : Nat
  eth : ethhdr
  iph : iphdr
  options : List Nat
  transport : List Nat
  data : Nat
  len : Nat
deriving DecidableEq, Repr

/-- Kernel `igmp_hdr(skb)`: the transport bytes read as a `struct igmphdr`. -/
def igmp_hdr (e : Endian) (skb : sk_buff) : igmphdr :=
  let b := fun i => skb.transport.getD i 0
  { type := b 0, code := b 1, csum := load16 e (b 2) (b 3),
    group := load32 e (b 4) (b 5) (b 6) (b 7) }

/-- The bytes of the IPv4 header of a buffer, options included. -/
def sk_buff.ip_header_bytes (e : Endian) (skb : sk_buff) : List Nat :=
  skb.iph.bytes e ++ skb.options

/-- A route for one multicast group (`struct route` of `router.h`; the
`linkage` and `rcu_read` members are bookkeeping of the kernel table). -/
structure route where
  group : Nat
  ref : Nat
  age_value : Int
  age_activity : Int
deriving DecidableEq, Repr

/-- The contents of the kernel `rhashtable` named `route_table`, most recent
insertion first.  The key of an entry is its `group` (`key_offset`, `key_len`
of `route_table_params`). -/
abbrev rhashtable := List route

/-- The two netfilter hooks of the module. -/
inductive Hook where
  | nf_upstream
  | nf_downstream
deriving DecidableEq, Repr

/-- The messages the module prints, one per `pr_*` call site. -/
inductive LogMsg where
  | received_multicast
  | routing_multicast
  | drop_report_invalid_group
  | insert_group
  | drop_leave_invalid_group
  | received_report
  | host_leave
  | ignoring_unknown_type
  | invalid_upstream
  | invalid_downstream
  | same_device
  | router_init_failed
  | attaching_upstream
  | attaching_downstream
  | joining_all_routers
  | running
  | stopping
  | join_failed
  | leave_failed
  | skb_alloc_failed
  | sent_query_group
  | sent_query_all
  | insert_failed
deriving DecidableEq, Repr

/-- A call of the module that is visible outside it. -/
inductive Effect where
  | printk (m : LogMsg)
  | dev_queue_xmit (skb : sk_buff)
  | ip_mc_join_group (ifindex : Nat) (multiaddr : Nat)
  | ip_mc_leave_group (ifindex : Nat) (multiaddr : Nat)
  | rhashtable_init
  | rhashtable_destroy
  | nf_register_net_hook (h : Hook)
  | nf_unregister_net_hook (h : Hook)
deriving DecidableEq, Repr

/-- The mutable state of the module: the route table and the calls made so far. -/
structure State where
  route_table : rhashtable
  trace : List Effect
deriving DecidableEq, Repr

/-- Record one call at the end of the trace. -/
def State.emit (s : State) (ev : Effect) : State :=
  { s with trace := s.trace ++ [ev] }

/-- Record one printed message. -/
def State.pr (s : State) (m : LogMsg) : State :=
  s.emit (.printk m)

/-- The way a run ends without returning. -/
inductive Fault where
  | null_deref
deriving DecidableEq, Repr

deriving instance DecidableEq for Except

/-- What the kernel answers to the module during one call.  A `*_ok` field
says that the allocation returns a buffer rather than `NULL`; a `*_ret` field
is the `int` the service returns; `rht_insert_err` is the error number with
which the table refuses an insertion, if it does; `inet_select_addr` and
`ip_mc_check_igmp` are the kernel functions of these names. -/
structure Kernel where
  endian : Endian
  kzalloc_ok : Bool
  rht_insert_err : Option Nat
  alloc_skb_ok : Bool
  skb_clone_ok : Bool
  inet_select_addr : net_device → Nat
  ip_mc_check_igmp : sk_buff → Int
  rhashtable_init_ret : Int
  nf_register_upstream_ret : Int
  nf_register_downstream_ret : Int
  ip_mc_join_group_ret : Int
  ip_mc_leave_group_ret : Int

/-- An effect is a packet transmission. -/
def Effect.isXmit : Effect → Bool
  | .dev_queue_xmit _ => true
  | _ => false

/-- An effect is a printed message. -/
def Effect.isPrintk : Effect → Bool
  | .printk _ => true
  | _ => false

/-- The packets handed to `dev_queue_xmit`, in order. -/
def xmits : List Effect → List sk_buff
  | [] => []
  | .dev_queue_xmit skb :: rest => skb :: xmits rest
  | _ :: rest => xmits rest

/-- The trace without the printed messages. -/
def actions (t : List Effect) : List Effect :=
  t.filter (fun ev => !ev.isPrintk)

/-! ## router.c -/

/-- Kernel `rhashtable_lookup_fast`: the entry stored under `key`, if any. -/
def rhashtable_lookup_fast (ht : rhashtable) (key : Nat) : Option route :=
  ht.find? (fun r => r.group == key)

/-- Result of `rhashtable_lookup_get_insert_fast`: `NULL` after the object has
been inserted, the entry already stored under its key, or `ERR_PTR(-errno)`. -/
inductive InsertResult where
  | inserted (ht : rhashtable)
  | existing (r : route)
  | err (errno : Nat)
deriving DecidableEq, Repr

/-- Kernel `rhashtable_lookup_get_insert_fast`: an entry with the key of `obj`
is returned when there is one; otherwise `obj` is inserted, unless the table
refuses the insertion with the error `fail`. -/
def rhashtable_lookup_get_insert_fast (fail : Option Nat) (ht : rhashtable) (obj : route) :
    InsertResult :=
  match rhashtable_lookup_fast ht obj.group with
  | some r => .existing r
  | none =>
    match fail with
    | some errno => .err errno
    | none => .inserted (obj :: ht)

/-- Kernel `rhashtable_remove_fast`: the table with the object `obj` unlinked. -/
def rhashtable_remove_fast (ht : rhashtable) (obj : route) : rhashtable :=
  ht.erase obj

/-- `router_init` (router.c:31): `rhashtable_init` is called and returns
`err`; the table is empty once it has returned 0. -/
def router_init (k : Kernel) (s : State) : Int × State :=
  let err := k.rhashtable_init_ret
  let s1 := s.emit .rhashtable_init
  let s2 := if err = 0 then { s1 with route_table := [] } else s1
  if err < 0 then (err, s2) else (0, s2)

/-- `router_exit` (router.c:41). -/
def router_exit (s : State) : State :=
  { s.emit .rhashtable_destroy with route_table := [] }

/-- `router_add_route` (router.c:46).  When no route is stored for `group` a
candidate is allocated with `kzalloc` and its `group` member is written
without a check of the pointer, then the candidate is offered to the table. -/
def router_add_route (k : Kernel) (group : Nat) (s : State) : Except Fault State :=
  match rhashtable_lookup_fast s.route_table group with
  | some _ => .ok s
  | none =>
    if k.kzalloc_ok then
      let new_route : route := { group := group, ref := 0, age_value := 0, age_activity := 0 }
      match rhashtable_lookup_get_insert_fast k.rht_insert_err s.route_table new_route with
      | .inserted ht => .ok { s with route_table := ht }
      | .existing _ => .ok s
      | .err _ => .ok (s.pr .insert_failed)
    else
      .error .null_deref

/-- `router_delete_route` (router.c:67). -/
def router_delete_route (group : Nat) (s : State) : State :=
  match rhashtable_lookup_fast s.route_table group with
  | some route => { s with route_table := rhashtable_remove_fast s.route_table route }
  | none => s

/-- `router_lookup` (router.c:79). -/
def router_lookup (s : State) (group : Nat) : Option route :=
  rhashtable_lookup_fast s.route_table group

/-! ## igmp.c -/

/-- `igmp_join` (igmp.c:28): ask the kernel to join `group` on the interface
`dev->ifindex`; a failure is printed. -/
def igmp_join (k : Kernel) (dev : net_device) (group : Nat) (s : State) : State :=
  let s1 := s.emit (.ip_mc_join_group dev.ifindex group)
  if k.ip_mc_join_group_ret < 0 then s1.pr .join_failed else s1

/-- `igmp_leave` (igmp.c:46). -/
def igmp_leave (k : Kernel) (dev : net_device) (group : Nat) (s : State) : State :=
  let s1 := s.emit (.ip_mc_leave_group dev.ifindex group)
  if k.ip_mc_leave_group_ret < 0 then s1.pr .leave_failed else s1

/-- Kernel `ip_send_check(iph)`: clear `check`, then store the checksum of the
`ihl` words that start at the header; `tail` is the memory after the fixed
header. -/
def ip_send_check (e : Endian) (iph : iphdr) (tail : List Nat) : iphdr :=
  let iph0 := { iph with check := 0 }
  { iph0 with check := ip_fast_csum e (iph0.bytes e ++ tail) iph0.ihl }

/-- `igmp_query_alloc` (igmp.c:67): the query packet for destination `dst`
(`__be32`), response code `code` (`__be32`) and group `group`, or `NULL` when
the buffer cannot be allocated. -/
def igmp_query_alloc (k : Kernel) (dev : net_device) (dst code group : Nat) : Option sk_buff :=
  let e := k.endian
  let sizeof_eth := 14
  let sizeof_iph := 20
  let igmp_hdr_size := 8
  let pkt_size := sizeof_eth + sizeof_iph + 4 + igmp_hdr_size
  if k.alloc_skb_ok then
    let eth : ethhdr :=
      { h_source := dev.dev_addr, h_dest := ip_eth_mc_map e dst, h_proto := htons e ETH_P_IP }
    let len1 := sizeof_eth
    let iph : iphdr :=
      { tot_len := htons e (pkt_size - sizeof_eth), version := 4, ihl := 6, tos := 0xc0,
        id := 0, frag_off := htons e IP_DF, ttl := 1, protocol := IPPROTO_IGMP,
        saddr := k.inet_select_addr dev, daddr := dst, check := 0 }
    let options := [IPOPT_RA, 4, 0, 0]
    let iph := ip_send_check e iph options
    let len2 := len1 + 24
    let ih : igmphdr :=
      { type := IGMP_HOST_MEMBERSHIP_QUERY, code := code % 256, group := group, csum := 0 }
    let ih := { ih with csum := ip_compute_csum e (ih.bytes e) igmp_hdr_size }
    let len3 := len2 + igmp_hdr_size
    some { dev := dev, protocol := htons e ETH_P_IP, eth := eth, iph := iph,
           options := options, transport := ih.bytes e,
           data := sizeof_eth, len := len3 - sizeof_eth }
  else
    none

/-- `igmp_query_send` (igmp.c:134). -/
def igmp_query_send (k : Kernel) (dev : net_device) (dst code group : Nat) (s : State) : State :=
  match igmp_query_alloc k dev dst code group with
  | none => s.pr .skb_alloc_failed
  | some skb => s.emit (.dev_queue_xmit skb)

/-- `igmp_probe` (igmp.c:146). -/
def igmp_probe (k : Kernel) (dev : net_device) (group : Nat) (s : State) : State :=
  let code := htonl k.endian (INTERVAL_QUERY_RESPONSE * IGMP_TIMER_SCALE)
  igmp_query_send k dev group code group (s.pr .sent_query_group)

/-- `igmp_probe_all` (igmp.c:155). -/
def igmp_probe_all (k : Kernel) (dev : net_device) (s : State) : State :=
  let dst := htonl k.endian INADDR_ALLHOSTS_GROUP
  let code := htonl k.endian (INTERVAL_QUERY_RESPONSE * IGMP_TIMER_SCALE)
  igmp_query_send k dev dst code 0 (s.pr .sent_query_all)

/-! ## kmbridge.c -/

/-- `nf_upstream_rcv` (kmbridge.c:84): the hook of the upstream device.  The
result is the netfilter verdict and the new state. -/
def nf_upstream_rcv (k : Kernel) (downstream : net_device) (skb : Option sk_buff) (s : State) :
    Except Fault (Nat × State) :=
  match skb with
  | none => .ok (NF_ACCEPT, s)
  | some skb =>
    let iph := skb.iph
    if !ipv4_is_multicast k.endian iph.daddr then
      .ok (NF_ACCEPT, s)
    else
      let s1 := s.pr .received_multicast
      match router_lookup s1 iph.daddr with
      | none => .ok (NF_ACCEPT, s1)
      | some _ =>
        let s2 := s1.pr .routing_multicast
        if k.skb_clone_ok then
          let copy := { skb with dev := downstream }
          .ok (NF_ACCEPT, s2.emit (.dev_queue_xmit copy))
        else
          .error .null_deref

/-- `nf_downstream_report` (kmbridge.c:123). -/
def nf_downstream_report (k : Kernel) (_src group : Nat) (s : State) : Except Fault State :=
  if !ipv4_is_multicast k.endian group then
    .ok (s.pr .drop_report_invalid_group)
  else
    router_add_route k (ntohl k.endian group) (s.pr .insert_group)

/-- `nf_downstream_leave` (kmbridge.c:141). -/
def nf_downstream_leave (k : Kernel) (downstream : net_device) (_src group : Nat) (s : State) :
    State :=
  if !ipv4_is_multicast k.endian group then
    s.pr .drop_leave_invalid_group
  else
    igmp_probe k downstream group s

/-- `nf_downstream_rcv` (kmbridge.c:155): the hook of the downstream device. -/
def nf_downstream_rcv (k : Kernel) (downstream : net_device) (skb : Option sk_buff) (s : State) :
    Except Fault (Nat × State) :=
  match skb with
  | none => .ok (NF_ACCEPT, s)
  | some skb =>
    let iph := skb.iph
    if iph.protocol ≠ IPPROTO_IGMP then
      .ok (NF_ACCEPT, s)
    else if k.ip_mc_check_igmp skb < 0 then
      .ok (NF_DROP, s)
    else
      let ih := igmp_hdr k.endian skb
      if ih.type = IGMP_HOST_MEMBERSHIP_REPORT ∨ ih.type = IGMPV2_HOST_MEMBERSHIP_REPORT then
        match nf_downstream_report k iph.saddr ih.group (s.pr .received_report) with
        | .ok s1 => .ok (NF_ACCEPT, s1)
        | .error f => .error f
      else if ih.type = IGMP_HOST_LEAVE_MESSAGE then
        .ok (NF_ACCEPT, nf_downstream_leave k downstream iph.saddr ih.group (s.pr .host_leave))
      else
        .ok (NF_ACCEPT, s.pr .ignoring_unknown_type)

/-- `kmbridge_init` (kmbridge.c:194): the value returned and the new state. -/
def kmbridge_init (k : Kernel) (upstream downstream : Option net_device) (s : State) :
    Int × State :=
  match upstream, downstream with
  | none, _ => (-EINVAL, s.pr .invalid_upstream)
  | some _, none => (-EINVAL, s.pr .invalid_downstream)
  | some up, some down =>
    if up = down then
      (-EINVAL, s.pr .same_device)
    else
      let (err, s1) := router_init k s
      if err < 0 then
        (err, s1.pr .router_init_failed)
      else
        let s2 := (s1.pr .attaching_upstream).emit (.nf_register_net_hook .nf_upstream)
        let err := k.nf_register_upstream_ret
        if err ≠ 0 then
          (err, router_exit s2)
        else
          let s3 := s2.pr .attaching_downstream
          let s4 := s3.emit (.nf_register_net_hook .nf_downstream)
          let err := k.nf_register_downstream_ret
          if err ≠ 0 then
            (err, router_exit (s4.emit (.nf_unregister_net_hook .nf_upstream)))
          else
            let s5 := igmp_probe_all k down s4
            let s6 := s5.pr .joining_all_routers
            let s7 := igmp_join k down (htonl k.endian INADDR_ALLRTRS_GROUP) s6
            (0, s7.pr .running)

/-- `kmbridge_exit` (kmbridge.c:253). -/
def kmbridge_exit (k : Kernel) (downstream : net_device) (s : State) : State :=
  let s1 := s.pr .stopping
  let s2 := igmp_leave k downstream (htonl k.endian INADDR_ALLRTRS_GROUP) s1
  let s3 := s2.emit (.nf_unregister_net_hook .nf_upstream)
  let s4 := s3.emit (.nf_unregister_net_hook .nf_downstream)
  router_exit s4

/-! ## Table invariants and sample inputs -/

/-- The keys stored in the table. -/
def route_keys (ht : rhashtable) : List Nat :=
  ht.map (fun r => r.group)

/-- The invariant of the kernel table: no two entries share a key. -/
abbrev keys_unique (ht : rhashtable) : Prop :=
  (route_keys ht).Nodup

/-- The number of routes stored under `group`. -/
def route_count (ht : rhashtable) (group : Nat) : Nat :=
  (route_keys ht).count group

/-- The numeric value of an IPv4 address written `a.b.c.d`. -/
def ipv4 (a b c d : Nat) : Nat :=
  a * 16777216 + b * 65536 + c * 256 + d

/-- The `__be32` a host of byte order `e` holds for the address `a.b.c.d`. -/
def be32_of (e : Endian) (a b c d : Nat) : Nat :=
  load32 e a b c d

/-- A validation in the manner of `ip_mc_check_igmp`, used to evaluate the
hooks on concrete packets: the IGMP message has at least 8 bytes and its
checksum verifies, else `-EINVAL`. -/
def igmp_csum_check (skb : sk_buff) : Int :=
  if 8 ≤ skb.transport.length ∧ csum_sum16 skb.transport = 65535 then 0 else -EINVAL

/-- A kernel on a host of byte order `e` in which every service succeeds. -/
def kernel_ok (e : Endian) : Kernel :=
  { endian := e, kzalloc_ok := true, rht_insert_err := none, alloc_skb_ok := true,
    skb_clone_ok := true, inet_select_addr := fun _ => be32_of e 192 168 1 1,
    ip_mc_check_igmp := igmp_csum_check, rhashtable_init_ret := 0,
    nf_register_upstream_ret := 0, nf_register_downstream_ret := 0,
    ip_mc_join_group_ret := 0, ip_mc_leave_group_ret := 0 }

/-- A sample upstream device. -/
def dev_up : net_device :=
  { ifindex := 2, dev_addr := [0x02, 0x00, 0x00, 0x00, 0x00, 0x01] }

/-- A sample downstream device. -/
def dev_down : net_device :=
  { ifindex := 3, dev_addr := [0x02, 0x00, 0x00, 0x00, 0x00, 0x02] }

/-- The state with an empty route table and no call made. -/
def state_empty : State :=
  { route_table := [], trace := [] }

/-- A state whose table holds the route for 224.0.0.251. -/
def state_one : State :=
  { route_table := [{ group := ipv4 224 0 0 251, ref := 0, age_value := 0, age_activity := 0 }],
    trace := [] }

/-- A sample UDP data packet received on `dev` for destination `daddr` (`__be32`). -/
def data_packet (e : Endian) (dev : net_device) (saddr daddr : Nat) : sk_buff :=
  { dev := dev, protocol := htons e ETH_P_IP,
    eth := { h_dest := ip_eth_mc_map e daddr, h_source := [0x02, 0, 0, 0, 0, 0x09],
             h_proto := htons e ETH_P_IP },
    iph := { version := 4, ihl := 5, tos := 0, tot_len := htons e 32, id := 0, frag_off := 0,
             ttl := 8, protocol := 17, check := 0, saddr := saddr, daddr := daddr },
    options := [], transport := [0x13, 0x88, 0x13, 0x88, 0x00, 0x0c, 0x00, 0x00, 1, 2, 3, 4],
    data := 14, len := 32 }

/-- A sample IGMP packet received on `dev`: IPv4 header with the router-alert
option, then the 8 bytes `msg`. -/
def igmp_packet (e : Endian) (dev : net_device) (saddr daddr : Nat) (msg : List Nat) : sk_buff :=
  { dev := dev, protocol := htons e ETH_P_IP,
    eth := { h_dest := ip_eth_mc_map e daddr, h_source := [0x02, 0, 0, 0, 0, 0x09],
             h_proto := htons e ETH_P_IP },
    iph := { version := 4, ihl := 6, tos := 0xc0, tot_len := htons e 32, id := 0, frag_off := 0,
             ttl := 1, protocol := IPPROTO_IGMP, check := 0, saddr := saddr, daddr := daddr },
    options := [IPOPT_RA, 4, 0, 0], transport := msg,
    data := 14, len := 32 }

/-- The number two bytes denote on the wire (most significant byte first). -/
def wire16 (b0 b1 : Nat) : Nat :=
  b0 * 256 + b1

/-- An IGMP message with its checksum field (bytes 2 and 3) set to zero. -/
def igmp_csum_cleared (msg : List Nat) : List Nat :=
  msg.take 2 ++ ([0, 0] ++ msg.drop 4)

/-- An IPv4 header with its checksum field (bytes 10 and 11) set to zero. -/
def ip_check_cleared (hdr : List Nat) : List Nat :=
  hdr.take 10 ++ ([0, 0] ++ hdr.drop 12)

/-- A kernel in which every service succeeds but the allocation of a packet buffer. -/
def kernel_no_skb (e : Endian) : Kernel :=
  { kernel_ok e with alloc_skb_ok := false }

/-- An effect is a request to join a group. -/
def Effect.isJoin : Effect → Bool
  | .ip_mc_join_group _ _ => true
  | _ => false

/-- A version 2 membership report for 239.1.1.1 with its checksum `f9 fc`. -/
def good_report (e : Endian) : sk_buff :=
  igmp_packet e dev_down (be32_of e 192 168 1 7) (be32_of e 239 1 1 1)
    [0x16, 0x00, 0xf9, 0xfc, 239, 1, 1, 1]

/-- A version 2 membership report for 239.1.1.1 whose checksum bytes `fa 01`
are wrong (the checksum of the message is `f9 fc`). -/
def bad_report (e : Endian) : sk_buff :=
  igmp_packet e dev_down (be32_of e 192 168 1 7) (be32_of e 239 1 1 1)
    [0x16, 0x00, 0xfa, 0x01, 239, 1, 1, 1]

/-- A kernel in which every service succeeds but `kzalloc`. -/
def kernel_no_kzalloc (e : Endian) : Kernel :=
  { kernel_ok e with kzalloc_ok := false }

/-- A kernel in which every service succeeds but `skb_clone`. -/
def kernel_no_clone (e : Endian) : Kernel :=
  { kernel_ok e with skb_clone_ok := false }

/-- A state whose table holds the routes for 239.1.1.1 and 224.0.0.251. -/
def state_two : State :=
  { route_table := [{ group := ipv4 239 1 1 1, ref := 0, age_value := 0, age_activity := 0 },
                    { group := ipv4 224 0 0 251, ref := 0, age_value := 0, age_activity := 0 }],
    trace := [] }

/-- A key is the host-order value of a class-D address. -/
abbrev class_d (key : Nat) : Prop :=
  0xe0000000 ≤ key ∧ key ≤ 0xefffffff

/-- Every element of a buffer is a byte. -/
abbrev bytes_ok (buf : List Nat) : Prop :=
  ∀ b ∈ buf, b < 256

/-- A leave message for 10.0.0.1 with its checksum `de fe`. -/
def leave_unicast (e : Endian) : sk_buff :=
  igmp_packet e dev_down (be32_of e 192 168 1 7) (be32_of e 224 0 0 2)
    [0x17, 0x00, 0xde, 0xfe, 10, 0, 0, 1]

/-- A leave message for 239.1.1.1 with its checksum `f8 fc`. -/
def good_leave (e : Endian) : sk_buff :=
  igmp_packet e dev_down (be32_of e 192 168 1 7) (be32_of e 224 0 0 2)
    [0x17, 0x00, 0xf8, 0xfc, 239, 1, 1, 1]

/-- One delivery of the interception layer: the hook that is called, with the
packet it is given. -/
inductive Rx where
  | upstream (skb : Option sk_buff)
  | downstream (skb : Option sk_buff)

/-- The packet of a delivery. -/
def Rx.skb : Rx → Option sk_buff
  | .upstream skb => skb
  | .downstream skb => skb

/-- A delivery together with what the kernel answers while it is handled. -/
structure Delivery where
  kernel : Kernel
  rx : Rx

/-- Handle one delivery: call the hook it names. -/
def deliver (downstream : net_device) (d : Delivery) (s : State) : Except Fault (Nat × State) :=
  match d.rx with
  | .upstream skb => nf_upstream_rcv d.kernel downstream skb s
  | .downstream skb => nf_downstream_rcv d.kernel downstream skb s

/-- The states the module goes through while a sequence of deliveries is
handled: the state before the first delivery and the state after each
delivery that returns; a delivery that faults ends the sequence. -/
def trajectory (downstream : net_device) : List Delivery → State → List State
  | [], s => [s]
  | d :: rest, s =>
    s :: (match deliver downstream d s with
          | .ok (_, s1) => trajectory downstream rest s1
          | .error _ => [])

/-- The packet of a delivery, if there is one, is made of bytes. -/
def Delivery.wf (d : Delivery) : Bool :=
  match d.rx.skb with
  | none => true
  | some p => p.transport.all (fun b => decide (b < 256))

/-- A sample sequence of deliveries: a report for 239.1.1.1, a data packet for
239.1.1.1, a leave for 239.1.1.1, a leave for 10.0.0.1 and a null packet. -/
def sample_deliveries (e : Endian) : List Delivery :=
  [{ kernel := kernel_ok e, rx := .downstream (some (good_report e)) },
   { kernel := kernel_ok e,
     rx := .upstream (some (data_packet e dev_up (be32_of e 10 0 0 1) (be32_of e 239 1 1 1))) },
   { kernel := kernel_ok e, rx := .downstream (some (good_leave e)) },
   { kernel := kernel_ok e, rx := .downstream (some (leave_unicast e)) },
   { kernel := kernel_ok e, rx := .upstream none }]

/-! ## Arithmetic of byte order, masks and checksums -/

theorem and_shl (x m k : Nat) : x &&& (m <<< k) = ((x >>> k) &&& m) <<< k := by
  apply Nat.eq_of_testBit_eq
  intro i
  simp only [Nat.testBit_and, Nat.testBit_shiftLeft, Nat.testBit_shiftRight]
  by_cases h : k ≤ i
  · simp [h, Nat.add_sub_cancel' h]
  · simp [h]

theorem and_low_mask (x n : Nat) : x &&& (2 ^ n - 1) = x % 2 ^ n :=
  Nat.and_pow_two_sub_one_eq_mod x n

theorem and_nibble_shl (x k : Nat) :
    x &&& ((2 ^ 4 - 1) <<< k) = (x / 2 ^ k % 2 ^ 4) * 2 ^ k := by
  rw [and_shl, and_low_mask, Nat.shiftRight_eq_div_pow, Nat.shiftLeft_eq]

theorem and_f0 (x : Nat) : x &&& 0xf0 = (x / 16 % 16) * 16 := by
  have h := and_nibble_shl x 4
  norm_num at h
  exact h

theorem and_f0000000 (x : Nat) : x &&& 0xf0000000 = (x / 268435456 % 16) * 268435456 := by
  have h := and_nibble_shl x 28
  norm_num at h
  exact h

/-- `ipv4_is_multicast` holds exactly for the `__be32` values of the addresses
224.0.0.0 to 239.255.255.255, on either byte order. -/
theorem ipv4_is_multicast_iff (e : Endian) (G : Nat) (hG : G < 4294967296) :
    ipv4_is_multicast e G = true ↔ (0xe0000000 ≤ ntohl e G ∧ ntohl e G ≤ 0xefffffff) := by
  cases e
  · simp only [ipv4_is_multicast, htonl, ntohl, swab32, beq_iff_eq]
    norm_num
    rw [and_f0]
    have hR : (G / 256 % 256) * 65536 + (G / 65536 % 256) * 256 + G / 16777216 % 256
        < 16777216 := by
      omega
    have hb : G % 256 = (G / 16 % 16) * 16 + G % 16 := by omega
    omega
  · simp only [ipv4_is_multicast, htonl, ntohl, beq_iff_eq]
    rw [and_f0000000]
    omega

theorem fold_mult (m : Nat) (h1 : 1 ≤ m) (h2 : m ≤ 65536) :
    ((65535 * m % 65536 + 65535 * m / 65536) % 65536
      + (65535 * m % 65536 + 65535 * m / 65536) / 65536) % 65536 = 65535 := by
  have hd : 65535 * m / 65536 = m - 1 := by omega
  have hm : 65535 * m % 65536 = 65536 - m := by omega
  rw [hd, hm]
  have : 65536 - m + (m - 1) = 65535 := by omega
  rw [this]

/-- Adding the complement of its folded sum to a sum makes it fold to `0xffff`. -/
theorem fold_verify (s : Nat) (hs : s < 65536 * 65535) :
    let c := 65535 - ((s % 65536 + s / 65536) % 65536 + (s % 65536 + s / 65536) / 65536) % 65536
    let t := s + c
    ((t % 65536 + t / 65536) % 65536 + (t % 65536 + t / 65536) / 65536) % 65536 = 65535 := by
  intro c t
  have ht : t = 65535 * (s / 65536 + (s % 65536 + s / 65536) / 65536 + 1) := by omega
  rw [ht]
  apply fold_mult <;> omega

theorem csum_words_append_even : ∀ (n : Nat) (a b : List Nat), a.length = 2 * n →
    csum_words (a ++ b) = csum_words a + csum_words b := by
  intro n
  induction n with
  | zero =>
    intro a b h
    have : a = [] := List.length_eq_zero.mp (by omega)
    subst this
    simp [csum_words]
  | succ n ih =>
    intro a b h
    match a, h with
    | x :: y :: t, h =>
      have ht : t.length = 2 * n := by simp at h; omega
      simp [csum_words, ih t b ht]
      omega

theorem csum_words_patch (n : Nat) (a b : List Nat) (C : Nat) (ha : a.length = 2 * n)
    (hC : C < 65536) :
    csum_words (a ++ ([C / 256 % 256, C % 256] ++ b)) = csum_words (a ++ ([0, 0] ++ b)) + C := by
  rw [csum_words_append_even n a _ ha, csum_words_append_even n a _ ha]
  simp [csum_words]
  omega

theorem csum_wire_lt (buf : List Nat) : csum_wire buf < 65536 := by
  unfold csum_wire
  omega

/-- A buffer whose checksum field holds the checksum computed with the field
zero sums to `0xffff`. -/
theorem csum_verify (n : Nat) (a b : List Nat) (ha : a.length = 2 * n)
    (hs : csum_words (a ++ ([0, 0] ++ b)) < 65536 * 65535) :
    csum_sum16 (a ++ ([csum_wire (a ++ ([0, 0] ++ b)) / 256 % 256,
      csum_wire (a ++ ([0, 0] ++ b)) % 256] ++ b)) = 65535 := by
  unfold csum_sum16
  rw [csum_words_patch n a b _ ha (csum_wire_lt _)]
  exact fold_verify _ hs

theorem store16_htons (e : Endian) (c : Nat) (hc : c < 65536) :
    store16 e (htons e c) = [c / 256 % 256, c % 256] := by
  cases e
  · have hq : c / 256 < 256 := by omega
    have hr : c % 256 < 256 := by omega
    simp only [store16, htons, swab16, List.cons.injEq, and_true]
    generalize c / 256 = q at *
    generalize c % 256 = r at *
    omega
  · simp [store16, htons]

theorem load32_store32 (e : Endian) (v : Nat) (hv : v < 4294967296) :
    load32 e ((store32 e v).getD 0 0) ((store32 e v).getD 1 0) ((store32 e v).getD 2 0)
      ((store32 e v).getD 3 0) = v := by
  cases e <;> simp [load32, store32] <;> omega

theorem store32_length (e : Endian) (v : Nat) : (store32 e v).length = 4 := by
  cases e <;> rfl

/-- The buffer `igmp_query_alloc` returns when the allocation succeeds. -/
theorem igmp_query_alloc_ok (k : Kernel) (dev : net_device) (dst code group : Nat)
    (h : k.alloc_skb_ok = true) :
    ∃ skb, igmp_query_alloc k dev dst code group = some skb ∧
      skb.dev = dev ∧ skb.iph.daddr = dst ∧
      skb.transport = [0x11, code % 256] ++
        ([csum_wire ([0x11, code % 256] ++ ([0, 0] ++ store32 k.endian group)) / 256 % 256,
          csum_wire ([0x11, code % 256] ++ ([0, 0] ++ store32 k.endian group)) % 256]
          ++ store32 k.endian group) := by
  unfold igmp_query_alloc
  simp only [h, if_true]
  refine ⟨_, rfl, rfl, rfl, ?_⟩
  simp only [igmphdr.bytes, ip_compute_csum, IGMP_HOST_MEMBERSHIP_QUERY]
  have hlen : ([17 % 256, code % 256 % 256] ++ store16 k.endian 0 ++ store32 k.endian group).take 8
      = [17, code % 256] ++ ([0, 0] ++ store32 k.endian group) := by
    cases k.endian <;> simp [store16, store32]
  rw [hlen, store16_htons _ _ (csum_wire_lt _)]
  simp


theorem load16_wire (e : Endian) (c : Nat) (hc : c < 65536) :
    load16 e (c / 256 % 256) (c % 256) = htons e c := by
  cases e
  · rfl
  · simp only [load16, htons]
    omega

/-- The IGMP message of a query that `igmp_query_alloc` built. -/
theorem igmp_query_alloc_message (k : Kernel) (dev : net_device) (dst code group : Nat)
    (h : k.alloc_skb_ok = true) (hg : group < 4294967296) :
    ∃ skb, igmp_query_alloc k dev dst code group = some skb ∧
      skb.dev = dev ∧ skb.iph.daddr = dst ∧
      skb.transport.length = 8 ∧
      (igmp_hdr k.endian skb).type = IGMP_HOST_MEMBERSHIP_QUERY ∧
      (igmp_hdr k.endian skb).code = code % 256 ∧
      (igmp_hdr k.endian skb).group = group ∧
      (igmp_hdr k.endian skb).csum
        = ip_compute_csum k.endian (igmp_csum_cleared skb.transport) 8 ∧
      wire16 (skb.transport.getD 2 0) (skb.transport.getD 3 0)
        = csum_wire (igmp_csum_cleared skb.transport) ∧
      csum_sum16 skb.transport = 65535 := by
  obtain ⟨skb, h1, h2, h3, h4⟩ := igmp_query_alloc_ok k dev dst code group h
  have hclr : igmp_csum_cleared skb.transport
      = [0x11, code % 256] ++ ([0, 0] ++ store32 k.endian group) := by
    rw [h4]
    simp [igmp_csum_cleared]
  have hlt := csum_wire_lt ([0x11, code % 256] ++ ([0, 0] ++ store32 k.endian group))
  refine ⟨skb, h1, h2, h3, ?_, ?_, ?_, ?_, ?_, ?_, ?_⟩
  · rw [h4]
    simp [store32_length]
  · simp [igmp_hdr, h4, IGMP_HOST_MEMBERSHIP_QUERY]
  · simp [igmp_hdr, h4]
  · have := load32_store32 k.endian group hg
    simpa [igmp_hdr, h4] using this
  · have hl := load16_wire k.endian _ hlt
    have ht : (igmp_csum_cleared skb.transport).take 8 = igmp_csum_cleared skb.transport := by
      rw [hclr]
      cases k.endian <;> simp [store32]
    simp only [ip_compute_csum, ht]
    rw [hclr, ← hl]
    simp [igmp_hdr, h4]
  · rw [hclr]
    simp only [h4, wire16]
    have hlt2 := csum_wire_lt (17 :: code % 256 :: 0 :: 0 :: store32 k.endian group)
    simp
    omega
  · rw [h4]
    refine csum_verify 1 [0x11, code % 256] (store32 k.endian group) rfl ?_
    cases k.endian <;> simp [csum_words, store32] <;> omega

/-! ## Traces and the route table -/

@[simp] theorem pr_route_table (s : State) (m : LogMsg) : (s.pr m).route_table = s.route_table :=
  rfl

@[simp] theorem emit_route_table (s : State) (ev : Effect) :
    (s.emit ev).route_table = s.route_table :=
  rfl

@[simp] theorem pr_trace (s : State) (m : LogMsg) : (s.pr m).trace = s.trace ++ [.printk m] :=
  rfl

@[simp] theorem emit_trace (s : State) (ev : Effect) : (s.emit ev).trace = s.trace ++ [ev] :=
  rfl

theorem xmits_append (a b : List Effect) : xmits (a ++ b) = xmits a ++ xmits b := by
  induction a with
  | nil => rfl
  | cons ev t ih => cases ev <;> simp [xmits, ih]

@[simp] theorem xmits_snoc_printk (t : List Effect) (m : LogMsg) :
    xmits (t ++ [.printk m]) = xmits t := by
  simp [xmits_append, xmits]

@[simp] theorem xmits_snoc_xmit (t : List Effect) (skb : sk_buff) :
    xmits (t ++ [.dev_queue_xmit skb]) = xmits t ++ [skb] := by
  simp [xmits_append, xmits]

@[simp] theorem actions_snoc_printk (t : List Effect) (m : LogMsg) :
    actions (t ++ [.printk m]) = actions t := by
  simp [actions, Effect.isPrintk]

@[simp] theorem actions_snoc_xmit (t : List Effect) (skb : sk_buff) :
    actions (t ++ [.dev_queue_xmit skb]) = actions t ++ [.dev_queue_xmit skb] := by
  simp [actions, Effect.isPrintk]

theorem lookup_none_iff (ht : rhashtable) (G : Nat) :
    rhashtable_lookup_fast ht G = none ↔ G ∉ route_keys ht := by
  simp [rhashtable_lookup_fast, route_keys, List.find?_eq_none]

theorem lookup_some_key (ht : rhashtable) (G : Nat) (r : route)
    (h : rhashtable_lookup_fast ht G = some r) : r ∈ ht ∧ r.group = G := by
  unfold rhashtable_lookup_fast at h
  have h1 := List.find?_some h
  have h2 := List.mem_of_find?_eq_some h
  exact ⟨h2, by simpa using h1⟩

theorem lookup_some_mem (ht : rhashtable) (G : Nat) (r : route)
    (h : rhashtable_lookup_fast ht G = some r) : G ∈ route_keys ht := by
  obtain ⟨h1, h2⟩ := lookup_some_key ht G r h
  exact List.mem_map.mpr ⟨r, h1, h2⟩

/-- The table `router_init` leaves has unique keys. -/
theorem keys_unique_nil : keys_unique [] :=
  List.nodup_nil

/-- Whatever the kernel answers, `router_add_route` keeps the keys unique. -/
theorem router_add_route_keys_unique (k : Kernel) (G : Nat) (s s1 : State)
    (hwf : keys_unique s.route_table) (h : router_add_route k G s = .ok s1) :
    keys_unique s1.route_table := by
  unfold router_add_route at h
  cases hl : rhashtable_lookup_fast s.route_table G with
  | some r =>
    simp only [hl, Except.ok.injEq] at h
    rw [← h]
    exact hwf
  | none =>
    have hnot : G ∉ route_keys s.route_table := (lookup_none_iff _ _).mp hl
    cases hz : k.kzalloc_ok with
    | false => simp [hl, hz] at h
    | true =>
      cases hi : k.rht_insert_err with
      | some errno =>
        simp [hl, hz, hi, rhashtable_lookup_get_insert_fast] at h
        rw [← h]
        exact hwf
      | none =>
        simp [hl, hz, hi, rhashtable_lookup_get_insert_fast] at h
        rw [← h]
        simp only [keys_unique, route_keys, List.map_cons, List.nodup_cons]
        exact ⟨hnot, hwf⟩

/-! ## C1: a reported group and the forwarding path -/

/-- C1, evaluated on a little-endian host: a membership report for 239.1.1.1
is accepted and stores the route under the host-order key `ntohl(group)` =
0xef010101, while `nf_upstream_rcv` looks the destination of a data packet for
239.1.1.1 up under the network-order value `iph->daddr` = 0x010101ef; the
lookup finds nothing and no copy is queued for the downstream device. -/
theorem report_then_forward_misses_little_endian :
    ipv4_is_multicast .little (be32_of .little 239 1 1 1) = true ∧
    ∃ s1, nf_downstream_report (kernel_ok .little) (be32_of .little 192 168 1 7)
        (be32_of .little 239 1 1 1) state_empty = .ok s1 ∧
      route_keys s1.route_table = [ipv4 239 1 1 1] ∧
      router_lookup s1 (be32_of .little 239 1 1 1) = none ∧
      ∃ s2, nf_upstream_rcv (kernel_ok .little) dev_down
          (some (data_packet .little dev_up (be32_of .little 10 0 0 1)
            (be32_of .little 239 1 1 1))) s1 = .ok (NF_ACCEPT, s2) ∧
        xmits s2.trace = [] :=
  ⟨by decide, _, rfl, by decide, by decide, _, rfl, by decide⟩

/-- On a big-endian host `ntohl` is the identity, the two keys agree, and a
data packet for a reported group is copied to the downstream device. -/
theorem report_then_forward_big_endian (k : Kernel) (down : net_device) (src G : Nat)
    (skb : sk_buff) (s : State)
    (he : k.endian = .big) (hz : k.kzalloc_ok = true) (hi : k.rht_insert_err = none)
    (hc : k.skb_clone_ok = true) (hm : ipv4_is_multicast .big G = true)
    (hd : skb.iph.daddr = G) :
    ∃ s1, nf_downstream_report k src G s = .ok s1 ∧
      ∃ s2, nf_upstream_rcv k down (some skb) s1 = .ok (NF_ACCEPT, s2) ∧
        xmits s2.trace = xmits s1.trace ++ [{ skb with dev := down }] := by
  have hfwd : ∀ s1 : State, router_lookup s1 G ≠ none →
      ∃ s2, nf_upstream_rcv k down (some skb) s1 = .ok (NF_ACCEPT, s2) ∧
        xmits s2.trace = xmits s1.trace ++ [{ skb with dev := down }] := by
    intro s1 h1
    cases hl : router_lookup s1 G with
    | none => exact absurd hl h1
    | some r =>
      have hl2 : router_lookup (s1.pr .received_multicast) G = some r := hl
      refine ⟨((s1.pr .received_multicast).pr .routing_multicast).emit
        (.dev_queue_xmit { skb with dev := down }), ?_, ?_⟩
      · simp [nf_upstream_rcv, he, hd, hm, hl2, hc]
      · simp [xmits_append, xmits]
  cases hl : rhashtable_lookup_fast s.route_table G with
  | some r =>
    refine ⟨s.pr .insert_group, ?_, hfwd _ ?_⟩
    · simp [nf_downstream_report, he, hm, ntohl, router_add_route, hl]
    · simp [router_lookup, hl]
  | none =>
    refine ⟨{ s.pr .insert_group with route_table :=
        { group := G, ref := 0, age_value := 0, age_activity := 0 } :: s.route_table },
      ?_, hfwd _ ?_⟩
    · simp [nf_downstream_report, he, hm, ntohl, router_add_route, hl, hz, hi,
        rhashtable_lookup_get_insert_fast]
    · simp [router_lookup, rhashtable_lookup_fast]

/-! ## C2: insertion is idempotent -/

/-- C2: when the allocation of the entry and the insertion succeed,
`router_add_route(G)` on a table with unique keys returns; a second call
returns the very same state; the table then holds exactly one route for `G`,
its keys are still unique, and it has at most one entry more than before: none
more, and the state is unchanged, when `G` was already stored. -/
theorem router_add_route_idempotent (k1 k2 : Kernel) (G : Nat) (s : State)
    (hwf : keys_unique s.route_table)
    (hk : k1.kzalloc_ok = true) (hi : k1.rht_insert_err = none) :
    ∃ s1, router_add_route k1 G s = .ok s1 ∧
      router_add_route k2 G s1 = .ok s1 ∧
      route_count s1.route_table G = 1 ∧
      keys_unique s1.route_table ∧
      s.route_table.length ≤ s1.route_table.length ∧
      s1.route_table.length ≤ s.route_table.length + 1 ∧
      (router_lookup s G ≠ none → s1 = s) := by
  cases hl : rhashtable_lookup_fast s.route_table G with
  | some r =>
    refine ⟨s, ?_, ?_, ?_, hwf, le_refl _, Nat.le_succ _, fun _ => rfl⟩
    · simp [router_add_route, hl]
    · simp [router_add_route, hl]
    · exact List.count_eq_one_of_mem hwf (lookup_some_mem _ _ _ hl)
  | none =>
    have hnot : G ∉ route_keys s.route_table := (lookup_none_iff _ _).mp hl
    refine ⟨{ s with route_table :=
        { group := G, ref := 0, age_value := 0, age_activity := 0 } :: s.route_table },
      ?_, ?_, ?_, ?_, ?_, ?_, ?_⟩
    · simp [router_add_route, hl, hk, hi, rhashtable_lookup_get_insert_fast]
    · simp [router_add_route, rhashtable_lookup_fast]
    · simp [route_count, route_keys, List.count_cons]
      simpa [route_keys] using List.count_eq_zero_of_not_mem hnot
    · simp only [keys_unique, route_keys, List.map_cons, List.nodup_cons]
      exact ⟨hnot, hwf⟩
    · simp
    · simp
    · intro h
      exact absurd hl h

/-- C2 at a table that holds 224.0.0.251, adding 239.1.1.1. -/
theorem router_add_route_idempotent_witness :
    keys_unique state_one.route_table ∧
    ∃ s1, router_add_route (kernel_ok .little) (ipv4 239 1 1 1) state_one = .ok s1 ∧
      router_add_route (kernel_ok .little) (ipv4 239 1 1 1) s1 = .ok s1 ∧
      route_count s1.route_table (ipv4 239 1 1 1) = 1 ∧
      keys_unique s1.route_table ∧
      state_one.route_table.length ≤ s1.route_table.length ∧
      s1.route_table.length ≤ state_one.route_table.length + 1 ∧
      (router_lookup state_one (ipv4 239 1 1 1) ≠ none → s1 = state_one) :=
  ⟨by decide, router_add_route_idempotent (kernel_ok .little) (kernel_ok .little)
    (ipv4 239 1 1 1) state_one (by decide) rfl rfl⟩

/-! ## C3: a group outside the multicast range is rejected -/

/-- C3: for a group address outside 224.0.0.0-239.255.255.255 both the report
handler and the leave handler return with the route table unchanged and with
nothing added to the trace but one printed message: no packet is queued. -/
theorem invalid_group_rejected (k : Kernel) (down : net_device) (src G : Nat) (s : State)
    (hG : G < 4294967296)
    (hout : ¬ (0xe0000000 ≤ ntohl k.endian G ∧ ntohl k.endian G ≤ 0xefffffff)) :
    (∃ s1, nf_downstream_report k src G s = .ok s1 ∧
      s1.route_table = s.route_table ∧ actions s1.trace = actions s.trace ∧
      xmits s1.trace = xmits s.trace) ∧
    (nf_downstream_leave k down src G s).route_table = s.route_table ∧
    actions (nf_downstream_leave k down src G s).trace = actions s.trace ∧
    xmits (nf_downstream_leave k down src G s).trace = xmits s.trace := by
  have hm : ipv4_is_multicast k.endian G = false := by
    cases h : ipv4_is_multicast k.endian G with
    | false => rfl
    | true => exact absurd ((ipv4_is_multicast_iff _ _ hG).mp h) hout
  refine ⟨⟨s.pr .drop_report_invalid_group, ?_, rfl, ?_, ?_⟩, ?_, ?_, ?_⟩
  · simp [nf_downstream_report, hm]
  · simp
  · simp
  · simp [nf_downstream_leave, hm]
  · simp [nf_downstream_leave, hm]
  · simp [nf_downstream_leave, hm]

/-- C3 at the address 10.0.0.1 on a little-endian host. -/
theorem invalid_group_rejected_witness :
    be32_of .little 10 0 0 1 < 4294967296 ∧
    ¬ (0xe0000000 ≤ ntohl .little (be32_of .little 10 0 0 1)
        ∧ ntohl .little (be32_of .little 10 0 0 1) ≤ 0xefffffff) ∧
    (∃ s1, nf_downstream_report (kernel_ok .little) (be32_of .little 192 168 1 7)
        (be32_of .little 10 0 0 1) state_one = .ok s1 ∧
      s1.route_table = state_one.route_table ∧ actions s1.trace = actions state_one.trace ∧
      xmits s1.trace = xmits state_one.trace) ∧
    (nf_downstream_leave (kernel_ok .little) dev_down (be32_of .little 192 168 1 7)
        (be32_of .little 10 0 0 1) state_one).route_table = state_one.route_table ∧
    actions (nf_downstream_leave (kernel_ok .little) dev_down (be32_of .little 192 168 1 7)
        (be32_of .little 10 0 0 1) state_one).trace = actions state_one.trace ∧
    xmits (nf_downstream_leave (kernel_ok .little) dev_down (be32_of .little 192 168 1 7)
        (be32_of .little 10 0 0 1) state_one).trace = xmits state_one.trace :=
  ⟨by decide, by decide,
    invalid_group_rejected (kernel_ok .little) dev_down (be32_of .little 192 168 1 7)
      (be32_of .little 10 0 0 1) state_one (by decide) (by decide)⟩

/-! ## C4: a leave message triggers a group-specific query -/

/-- C4 as stated fails when `netdev_alloc_skb_ip_align` returns `NULL`: the
leave message for the multicast group 239.1.1.1 is accepted, `igmp_query_send`
prints the failure and returns, and no packet is queued. -/
theorem leave_without_buffer_sends_nothing :
    ipv4_is_multicast .little (be32_of .little 239 1 1 1) = true ∧
    xmits (nf_downstream_leave (kernel_no_skb .little) dev_down (be32_of .little 192 168 1 7)
      (be32_of .little 239 1 1 1) state_one).trace = [] :=
  ⟨by decide, by decide⟩

/-- C4, amended: a leave message for a multicast group `G` leaves the route
table, and so every lookup, unchanged; when the packet buffer can be allocated
it queues exactly one packet, on the downstream device, with IP destination
`G`, IGMP type membership query and IGMP group `G`; when the buffer cannot be
allocated it queues nothing. -/
theorem leave_sends_group_query (k : Kernel) (down : net_device) (src G : Nat) (s : State)
    (hG : G < 4294967296)
    (hm : 0xe0000000 ≤ ntohl k.endian G ∧ ntohl k.endian G ≤ 0xefffffff) :
    (nf_downstream_leave k down src G s).route_table = s.route_table ∧
    (∀ H, router_lookup (nf_downstream_leave k down src G s) H = router_lookup s H) ∧
    (k.alloc_skb_ok = true →
      ∃ skb, xmits (nf_downstream_leave k down src G s).trace = xmits s.trace ++ [skb] ∧
        actions (nf_downstream_leave k down src G s).trace
          = actions s.trace ++ [.dev_queue_xmit skb] ∧
        skb.dev = down ∧ skb.iph.daddr = G ∧
        (igmp_hdr k.endian skb).type = IGMP_HOST_MEMBERSHIP_QUERY ∧
        (igmp_hdr k.endian skb).group = G) ∧
    (k.alloc_skb_ok = false →
      actions (nf_downstream_leave k down src G s).trace = actions s.trace) := by
  have hmc : ipv4_is_multicast k.endian G = true := (ipv4_is_multicast_iff _ _ hG).mpr hm
  have htab : (nf_downstream_leave k down src G s).route_table = s.route_table := by
    simp only [nf_downstream_leave, hmc, igmp_probe, igmp_query_send]
    cases igmp_query_alloc k down G (htonl k.endian (INTERVAL_QUERY_RESPONSE * IGMP_TIMER_SCALE)) G
      <;> rfl
  refine ⟨htab, ?_, ?_, ?_⟩
  · intro H
    simp only [router_lookup, htab]
  · intro ha
    obtain ⟨skb, h1, h2, h3, _, h5, _, h7, _⟩ :=
      igmp_query_alloc_message k down G
        (htonl k.endian (INTERVAL_QUERY_RESPONSE * IGMP_TIMER_SCALE)) G ha hG
    refine ⟨skb, ?_, ?_, h2, h3, h5, h7⟩
    · simp [nf_downstream_leave, hmc, igmp_probe, igmp_query_send, h1, xmits_append, xmits]
    · simp [nf_downstream_leave, hmc, igmp_probe, igmp_query_send, h1, actions, Effect.isPrintk]
  · intro ha
    simp [nf_downstream_leave, hmc, igmp_probe, igmp_query_send, igmp_query_alloc, ha, actions,
      Effect.isPrintk]

/-- C4 (amended) at a leave for 239.1.1.1 on a big-endian host. -/
theorem leave_sends_group_query_witness :
    be32_of .big 239 1 1 1 < 4294967296 ∧
    (0xe0000000 ≤ ntohl (kernel_ok .big).endian (be32_of .big 239 1 1 1)
      ∧ ntohl (kernel_ok .big).endian (be32_of .big 239 1 1 1) ≤ 0xefffffff) ∧
    (kernel_ok .big).alloc_skb_ok = true ∧
    (nf_downstream_leave (kernel_ok .big) dev_down (be32_of .big 192 168 1 7)
      (be32_of .big 239 1 1 1) state_one).route_table = state_one.route_table ∧
    (∀ H, router_lookup (nf_downstream_leave (kernel_ok .big) dev_down
        (be32_of .big 192 168 1 7) (be32_of .big 239 1 1 1) state_one) H
      = router_lookup state_one H) ∧
    ((kernel_ok .big).alloc_skb_ok = true →
      ∃ skb, xmits (nf_downstream_leave (kernel_ok .big) dev_down (be32_of .big 192 168 1 7)
          (be32_of .big 239 1 1 1) state_one).trace = xmits state_one.trace ++ [skb] ∧
        actions (nf_downstream_leave (kernel_ok .big) dev_down (be32_of .big 192 168 1 7)
          (be32_of .big 239 1 1 1) state_one).trace
          = actions state_one.trace ++ [.dev_queue_xmit skb] ∧
        skb.dev = dev_down ∧ skb.iph.daddr = be32_of .big 239 1 1 1 ∧
        (igmp_hdr (kernel_ok .big).endian skb).type = IGMP_HOST_MEMBERSHIP_QUERY ∧
        (igmp_hdr (kernel_ok .big).endian skb).group = be32_of .big 239 1 1 1) ∧
    ((kernel_ok .big).alloc_skb_ok = false →
      actions (nf_downstream_leave (kernel_ok .big) dev_down (be32_of .big 192 168 1 7)
        (be32_of .big 239 1 1 1) state_one).trace = actions state_one.trace) :=
  ⟨by decide, by decide, rfl,
    leave_sends_group_query (kernel_ok .big) dev_down (be32_of .big 192 168 1 7)
      (be32_of .big 239 1 1 1) state_one (by decide) (by decide)⟩

/-! ## C5 and C6: the IGMP message of a query -/

/-- The packets queued by `igmp_query_send` when the buffer is allocated. -/
theorem xmits_igmp_query_send (k : Kernel) (dev : net_device) (dst code group : Nat) (s : State)
    (skb : sk_buff) (h : igmp_query_alloc k dev dst code group = some skb) :
    xmits (igmp_query_send k dev dst code group s).trace = xmits s.trace ++ [skb] := by
  simp [igmp_query_send, h, xmits_append, xmits]

/-- C5: the 8-byte IGMP message `igmp_query_alloc` writes reads back through
`igmp_hdr` with type membership query (0x11) and the group passed in; its
checksum field is the checksum of the 8 bytes taken with that field zero, and
the ones-complement sum of all 8 bytes is 0xffff.  The query `igmp_probe_all`
sends carries group 0, the query `igmp_probe(G)` sends carries group `G`. -/
theorem query_round_trip (k : Kernel) (dev : net_device) (dst code group : Nat) (s : State)
    (ha : k.alloc_skb_ok = true) (hg : group < 4294967296) :
    (∃ skb, igmp_query_alloc k dev dst code group = some skb ∧
      skb.transport.length = 8 ∧
      (igmp_hdr k.endian skb).type = IGMP_HOST_MEMBERSHIP_QUERY ∧
      (igmp_hdr k.endian skb).group = group ∧
      (igmp_hdr k.endian skb).csum
        = ip_compute_csum k.endian (igmp_csum_cleared skb.transport) 8 ∧
      wire16 (skb.transport.getD 2 0) (skb.transport.getD 3 0)
        = csum_wire (igmp_csum_cleared skb.transport) ∧
      csum_sum16 skb.transport = 0xffff) ∧
    (∃ skb, xmits (igmp_probe_all k dev s).trace = xmits s.trace ++ [skb] ∧
      (igmp_hdr k.endian skb).type = IGMP_HOST_MEMBERSHIP_QUERY ∧
      (igmp_hdr k.endian skb).group = 0 ∧
      csum_sum16 skb.transport = 0xffff) ∧
    (∃ skb, xmits (igmp_probe k dev group s).trace = xmits s.trace ++ [skb] ∧
      (igmp_hdr k.endian skb).type = IGMP_HOST_MEMBERSHIP_QUERY ∧
      (igmp_hdr k.endian skb).group = group ∧
      csum_sum16 skb.transport = 0xffff) := by
  refine ⟨?_, ?_, ?_⟩
  · obtain ⟨skb, h1, _, _, h4, h5, _, h7, h8, h9, h10⟩ :=
      igmp_query_alloc_message k dev dst code group ha hg
    exact ⟨skb, h1, h4, h5, h7, h8, h9, h10⟩
  · obtain ⟨skb, h1, _, _, _, h5, _, h7, _, _, h10⟩ :=
      igmp_query_alloc_message k dev (htonl k.endian INADDR_ALLHOSTS_GROUP)
        (htonl k.endian (INTERVAL_QUERY_RESPONSE * IGMP_TIMER_SCALE)) 0 ha (by decide)
    refine ⟨skb, ?_, h5, h7, h10⟩
    simpa [igmp_probe_all] using xmits_igmp_query_send k dev _ _ 0 (s.pr .sent_query_all) skb h1
  · obtain ⟨skb, h1, _, _, _, h5, _, h7, _, _, h10⟩ :=
      igmp_query_alloc_message k dev group
        (htonl k.endian (INTERVAL_QUERY_RESPONSE * IGMP_TIMER_SCALE)) group ha hg
    refine ⟨skb, ?_, h5, h7, h10⟩
    simpa [igmp_probe] using
      xmits_igmp_query_send k dev _ _ group (s.pr .sent_query_group) skb h1

/-- C5 at a query for 239.1.1.1 on a little-endian host. -/
theorem query_round_trip_witness :
    (kernel_ok .little).alloc_skb_ok = true ∧ be32_of .little 239 1 1 1 < 4294967296 ∧
    ((∃ skb, igmp_query_alloc (kernel_ok .little) dev_down (be32_of .little 239 1 1 1) 100
        (be32_of .little 239 1 1 1) = some skb ∧
      skb.transport.length = 8 ∧
      (igmp_hdr (kernel_ok .little).endian skb).type = IGMP_HOST_MEMBERSHIP_QUERY ∧
      (igmp_hdr (kernel_ok .little).endian skb).group = be32_of .little 239 1 1 1 ∧
      (igmp_hdr (kernel_ok .little).endian skb).csum
        = ip_compute_csum (kernel_ok .little).endian (igmp_csum_cleared skb.transport) 8 ∧
      wire16 (skb.transport.getD 2 0) (skb.transport.getD 3 0)
        = csum_wire (igmp_csum_cleared skb.transport) ∧
      csum_sum16 skb.transport = 0xffff) ∧
    (∃ skb, xmits (igmp_probe_all (kernel_ok .little) dev_down state_one).trace
        = xmits state_one.trace ++ [skb] ∧
      (igmp_hdr (kernel_ok .little).endian skb).type = IGMP_HOST_MEMBERSHIP_QUERY ∧
      (igmp_hdr (kernel_ok .little).endian skb).group = 0 ∧
      csum_sum16 skb.transport = 0xffff) ∧
    (∃ skb, xmits (igmp_probe (kernel_ok .little) dev_down (be32_of .little 239 1 1 1)
        state_one).trace = xmits state_one.trace ++ [skb] ∧
      (igmp_hdr (kernel_ok .little).endian skb).type = IGMP_HOST_MEMBERSHIP_QUERY ∧
      (igmp_hdr (kernel_ok .little).endian skb).group = be32_of .little 239 1 1 1 ∧
      csum_sum16 skb.transport = 0xffff)) :=
  ⟨rfl, by decide,
    query_round_trip (kernel_ok .little) dev_down (be32_of .little 239 1 1 1) 100
      (be32_of .little 239 1 1 1) state_one rfl (by decide)⟩

/-- C6, evaluated on little-endian hosts: the probes compute
`htonl(10 * 10)` = 0x64000000 and `igmp_query_alloc` stores it into the 8-bit
`code` member, which keeps the low byte: the code byte of both queries is 0,
not 100. -/
theorem probe_code_little_endian (k : Kernel) (dev : net_device) (G : Nat) (s : State)
    (he : k.endian = .little) (ha : k.alloc_skb_ok = true) (hg : G < 4294967296) :
    INTERVAL_QUERY_RESPONSE * IGMP_TIMER_SCALE = 100 ∧
    (∃ skb, xmits (igmp_probe k dev G s).trace = xmits s.trace ++ [skb] ∧
      (igmp_hdr k.endian skb).code = 0) ∧
    (∃ skb, xmits (igmp_probe_all k dev s).trace = xmits s.trace ++ [skb] ∧
      (igmp_hdr k.endian skb).code = 0) := by
  have hcode : htonl k.endian (INTERVAL_QUERY_RESPONSE * IGMP_TIMER_SCALE) % 256 = 0 := by
    rw [he]
    decide
  refine ⟨rfl, ?_, ?_⟩
  · obtain ⟨skb, h1, _, _, _, _, h6, _⟩ :=
      igmp_query_alloc_message k dev G
        (htonl k.endian (INTERVAL_QUERY_RESPONSE * IGMP_TIMER_SCALE)) G ha hg
    refine ⟨skb, ?_, by rw [h6, hcode]⟩
    simpa [igmp_probe] using
      xmits_igmp_query_send k dev _ _ G (s.pr .sent_query_group) skb h1
  · obtain ⟨skb, h1, _, _, _, _, h6, _⟩ :=
      igmp_query_alloc_message k dev (htonl k.endian INADDR_ALLHOSTS_GROUP)
        (htonl k.endian (INTERVAL_QUERY_RESPONSE * IGMP_TIMER_SCALE)) 0 ha (by decide)
    refine ⟨skb, ?_, by rw [h6, hcode]⟩
    simpa [igmp_probe_all] using
      xmits_igmp_query_send k dev _ _ 0 (s.pr .sent_query_all) skb h1

/-- C6 (little-endian) at the sample devices. -/
theorem probe_code_little_endian_witness :
    (kernel_ok .little).endian = .little ∧ (kernel_ok .little).alloc_skb_ok = true ∧
    be32_of .little 239 1 1 1 < 4294967296 ∧
    INTERVAL_QUERY_RESPONSE * IGMP_TIMER_SCALE = 100 ∧
    (∃ skb, xmits (igmp_probe (kernel_ok .little) dev_down (be32_of .little 239 1 1 1)
        state_one).trace = xmits state_one.trace ++ [skb] ∧
      (igmp_hdr (kernel_ok .little).endian skb).code = 0) ∧
    (∃ skb, xmits (igmp_probe_all (kernel_ok .little) dev_down state_one).trace
        = xmits state_one.trace ++ [skb] ∧
      (igmp_hdr (kernel_ok .little).endian skb).code = 0) :=
  ⟨rfl, rfl, by decide,
    probe_code_little_endian (kernel_ok .little) dev_down (be32_of .little 239 1 1 1) state_one
      rfl rfl (by decide)⟩

/-- On a big-endian host `htonl` is the identity and the code byte is 100. -/
theorem probe_code_big_endian (k : Kernel) (dev : net_device) (G : Nat) (s : State)
    (he : k.endian = .big) (ha : k.alloc_skb_ok = true) (hg : G < 4294967296) :
    (∃ skb, xmits (igmp_probe k dev G s).trace = xmits s.trace ++ [skb] ∧
      (igmp_hdr k.endian skb).code = 100) ∧
    (∃ skb, xmits (igmp_probe_all k dev s).trace = xmits s.trace ++ [skb] ∧
      (igmp_hdr k.endian skb).code = 100) := by
  have hcode : htonl k.endian (INTERVAL_QUERY_RESPONSE * IGMP_TIMER_SCALE) % 256 = 100 := by
    rw [he]
    decide
  refine ⟨?_, ?_⟩
  · obtain ⟨skb, h1, _, _, _, _, h6, _⟩ :=
      igmp_query_alloc_message k dev G
        (htonl k.endian (INTERVAL_QUERY_RESPONSE * IGMP_TIMER_SCALE)) G ha hg
    refine ⟨skb, ?_, by rw [h6, hcode]⟩
    simpa [igmp_probe] using
      xmits_igmp_query_send k dev _ _ G (s.pr .sent_query_group) skb h1
  · obtain ⟨skb, h1, _, _, _, _, h6, _⟩ :=
      igmp_query_alloc_message k dev (htonl k.endian INADDR_ALLHOSTS_GROUP)
        (htonl k.endian (INTERVAL_QUERY_RESPONSE * IGMP_TIMER_SCALE)) 0 ha (by decide)
    refine ⟨skb, ?_, by rw [h6, hcode]⟩
    simpa [igmp_probe_all] using
      xmits_igmp_query_send k dev _ _ 0 (s.pr .sent_query_all) skb h1

/-! ## C7 and C10: the IPv4 header and the link header of a query -/

theorem store16_zero (e : Endian) : store16 e 0 = [0, 0] := by
  cases e <;> rfl

/-- The IPv4 header of a query that `igmp_query_alloc` built, byte by byte. -/
theorem igmp_query_alloc_ip_header (k : Kernel) (dev : net_device) (dst code group : Nat)
    (h : k.alloc_skb_ok = true) :
    ∃ skb, igmp_query_alloc k dev dst code group = some skb ∧
      skb.ip_header_bytes k.endian
        = [0x46, 0xc0, 0x00, 0x20, 0x00, 0x00, 0x40, 0x00, 0x01, 0x02] ++
          ([csum_wire ([0x46, 0xc0, 0x00, 0x20, 0x00, 0x00, 0x40, 0x00, 0x01, 0x02] ++
              ([0, 0] ++ (store32 k.endian (k.inet_select_addr dev) ++ store32 k.endian dst
                ++ [0x94, 0x04, 0x00, 0x00]))) / 256 % 256,
            csum_wire ([0x46, 0xc0, 0x00, 0x20, 0x00, 0x00, 0x40, 0x00, 0x01, 0x02] ++
              ([0, 0] ++ (store32 k.endian (k.inet_select_addr dev) ++ store32 k.endian dst
                ++ [0x94, 0x04, 0x00, 0x00]))) % 256] ++
            (store32 k.endian (k.inet_select_addr dev) ++ store32 k.endian dst
              ++ [0x94, 0x04, 0x00, 0x00])) ∧
      skb.iph.check = htons k.endian
        (csum_wire ([0x46, 0xc0, 0x00, 0x20, 0x00, 0x00, 0x40, 0x00, 0x01, 0x02] ++
          ([0, 0] ++ (store32 k.endian (k.inet_select_addr dev) ++ store32 k.endian dst
            ++ [0x94, 0x04, 0x00, 0x00])))) := by
  unfold igmp_query_alloc
  simp only [h, if_true]
  refine ⟨_, rfl, ?_⟩
  · simp only [sk_buff.ip_header_bytes, ip_send_check, iphdr.bytes, ip_fast_csum]
    have h32 : store16 k.endian (htons k.endian (14 + 20 + 4 + 8 - 14)) = [0, 32] :=
      store16_htons k.endian 32 (by decide)
    have hdf : store16 k.endian (htons k.endian IP_DF) = [0x40, 0] :=
      store16_htons k.endian 0x4000 (by decide)
    have hlen : ([4 % 16 * 16 + 6 % 16, 192 % 256] ++ [0, 32] ++ store16 k.endian 0 ++ [0x40, 0]
          ++ [1 % 256, IPPROTO_IGMP % 256] ++ store16 k.endian 0
          ++ store32 k.endian (k.inet_select_addr dev) ++ store32 k.endian dst
          ++ [IPOPT_RA, 4, 0, 0]).take (6 * 4)
        = [0x46, 0xc0, 0x00, 0x20, 0x00, 0x00, 0x40, 0x00, 0x01, 0x02] ++
          ([0, 0] ++ (store32 k.endian (k.inet_select_addr dev) ++ store32 k.endian dst
            ++ [0x94, 0x04, 0x00, 0x00])) := by
      cases k.endian <;> simp [store16, store32, IPPROTO_IGMP, IPOPT_RA]
    rw [h32, hdf, hlen, store16_htons _ _ (csum_wire_lt _)]
    simp [store16_zero, IPPROTO_IGMP, IPOPT_RA]

theorem ntohs_htons (e : Endian) (c : Nat) (hc : c < 65536) : ntohs e (htons e c) = c := by
  cases e
  · have hq : c / 256 < 256 := by omega
    have hr : c % 256 < 256 := by omega
    have hd : c = 256 * (c / 256) + c % 256 := (Nat.div_add_mod c 256).symm
    simp only [ntohs, htons, swab16]
    rw [Nat.mod_eq_of_lt hq]
    generalize c / 256 = q at *
    generalize c % 256 = r at *
    have h1 : (r * 256 + q) % 256 = q := by omega
    have h2 : (r * 256 + q) / 256 = r := by omega
    rw [h1, h2, Nat.mod_eq_of_lt hr]
    omega
  · rfl

/-- C7: the query `igmp_query_alloc` builds has a 24-byte IPv4 header with
version 4, ihl 6, TTL 1, protocol IGMP (2), TOS 0xc0, destination `dst`, the
router-alert option 94 04 00 00 and total length 24 + 8 = 32 (the buffer
length after the link header has been pulled); its `check` member is the
checksum of the 24 bytes taken with that field zero and the ones-complement
sum of the 24 bytes is 0xffff. -/
theorem query_ip_header (k : Kernel) (dev : net_device) (dst code group : Nat)
    (ha : k.alloc_skb_ok = true) :
    ∃ skb, igmp_query_alloc k dev dst code group = some skb ∧
      (skb.ip_header_bytes k.endian).length = 24 ∧
      skb.iph.version = 4 ∧ skb.iph.ihl = 6 ∧ skb.iph.ttl = 1 ∧
      skb.iph.protocol = IPPROTO_IGMP ∧ IPPROTO_IGMP = 2 ∧ skb.iph.tos = 0xc0 ∧
      skb.iph.daddr = dst ∧
      skb.options = [0x94, 0x04, 0x00, 0x00] ∧
      ntohs k.endian skb.iph.tot_len = 24 + 8 ∧
      (skb.ip_header_bytes k.endian).take 4 = [0x46, 0xc0, 0x00, 0x20] ∧
      (skb.ip_header_bytes k.endian).length + skb.transport.length = 32 ∧
      skb.len = 32 ∧
      skb.iph.check
        = ip_fast_csum k.endian (ip_check_cleared (skb.ip_header_bytes k.endian)) skb.iph.ihl ∧
      wire16 ((skb.ip_header_bytes k.endian).getD 10 0) ((skb.ip_header_bytes k.endian).getD 11 0)
        = csum_wire (ip_check_cleared (skb.ip_header_bytes k.endian)) ∧
      csum_sum16 (skb.ip_header_bytes k.endian) = 0xffff := by
  obtain ⟨skb, h1, hb, hc⟩ := igmp_query_alloc_ip_header k dev dst code group ha
  obtain ⟨skb2, h2, _, _, ht⟩ := igmp_query_alloc_ok k dev dst code group ha
  have hfields : skb.iph.version = 4 ∧ skb.iph.ihl = 6 ∧ skb.iph.ttl = 1 ∧
      skb.iph.protocol = IPPROTO_IGMP ∧ skb.iph.tos = 0xc0 ∧ skb.iph.daddr = dst ∧
      skb.options = [0x94, 0x04, 0x00, 0x00] ∧
      skb.iph.tot_len = htons k.endian 32 ∧ skb.len = 32 := by
    have h3 := h1
    unfold igmp_query_alloc at h3
    simp only [ha, if_true, Option.some.injEq] at h3
    subst h3
    exact ⟨rfl, rfl, rfl, rfl, rfl, rfl, rfl, rfl, rfl⟩
  obtain ⟨f1, f2, f3, f4, f5, f6, f7, f8, f9⟩ := hfields
  have hclr : ip_check_cleared (skb.ip_header_bytes k.endian)
      = [0x46, 0xc0, 0x00, 0x20, 0x00, 0x00, 0x40, 0x00, 0x01, 0x02] ++
          ([0, 0] ++ (store32 k.endian (k.inet_select_addr dev) ++ store32 k.endian dst
            ++ [0x94, 0x04, 0x00, 0x00])) := by
    rw [hb]
    simp [ip_check_cleared]
  have hlen : (skb.ip_header_bytes k.endian).length = 24 := by
    rw [hb]
    simp [store32_length]
  have htl : skb.transport.length = 8 := by
    have : skb2 = skb := Option.some.inj (h2.symm.trans h1)
    rw [← this, ht]
    simp [store32_length]
  refine ⟨skb, h1, hlen, f1, f2, f3, f4, rfl, f5, f6, f7, ?_, ?_, ?_, f9, ?_, ?_, ?_⟩
  · rw [f8]
    exact ntohs_htons _ 32 (by decide)
  · rw [hb]
    rfl
  · rw [hlen, htl]
  · rw [hc, hclr, f2]
    simp only [ip_fast_csum]
    congr 2
    cases k.endian <;> simp [store32]
  · rw [hclr, hb]
    have hlt := csum_wire_lt (70 :: 192 :: 0 :: 32 :: 0 :: 0 :: 64 :: 0 :: 1 :: 2 :: 0 :: 0 ::
      (store32 k.endian (k.inet_select_addr dev) ++ (store32 k.endian dst ++ [148, 4, 0, 0])))
    simp [wire16]
    omega
  · rw [hb]
    refine csum_verify 5 _ _ rfl ?_
    cases k.endian <;> simp [csum_words, store32] <;> omega

/-- C7 at a query for 239.1.1.1 on a little-endian host. -/
theorem query_ip_header_witness :
    (kernel_ok .little).alloc_skb_ok = true ∧
    ∃ skb, igmp_query_alloc (kernel_ok .little) dev_down (be32_of .little 239 1 1 1) 100
        (be32_of .little 239 1 1 1) = some skb ∧
      (skb.ip_header_bytes (kernel_ok .little).endian).length = 24 ∧
      skb.iph.version = 4 ∧ skb.iph.ihl = 6 ∧ skb.iph.ttl = 1 ∧
      skb.iph.protocol = IPPROTO_IGMP ∧ IPPROTO_IGMP = 2 ∧ skb.iph.tos = 0xc0 ∧
      skb.iph.daddr = be32_of .little 239 1 1 1 ∧
      skb.options = [0x94, 0x04, 0x00, 0x00] ∧
      ntohs (kernel_ok .little).endian skb.iph.tot_len = 24 + 8 ∧
      (skb.ip_header_bytes (kernel_ok .little).endian).take 4 = [0x46, 0xc0, 0x00, 0x20] ∧
      (skb.ip_header_bytes (kernel_ok .little).endian).length + skb.transport.length = 32 ∧
      skb.len = 32 ∧
      skb.iph.check
        = ip_fast_csum (kernel_ok .little).endian
            (ip_check_cleared (skb.ip_header_bytes (kernel_ok .little).endian)) skb.iph.ihl ∧
      wire16 ((skb.ip_header_bytes (kernel_ok .little).endian).getD 10 0)
          ((skb.ip_header_bytes (kernel_ok .little).endian).getD 11 0)
        = csum_wire (ip_check_cleared (skb.ip_header_bytes (kernel_ok .little).endian)) ∧
      csum_sum16 (skb.ip_header_bytes (kernel_ok .little).endian) = 0xffff :=
  ⟨rfl, query_ip_header (kernel_ok .little) dev_down (be32_of .little 239 1 1 1) 100
    (be32_of .little 239 1 1 1) rfl⟩

theorem and_7f (x : Nat) : x &&& 0x7f = x % 128 := by
  have h := and_low_mask x 7
  norm_num at h
  exact h

theorem and_ff (x : Nat) : x &&& 0xff = x % 256 := by
  have h := and_low_mask x 8
  norm_num at h
  exact h

/-- The three low bytes of a number given by its four bytes. -/
theorem low_bytes (d0 d1 d2 d3 : Nat) (h2 : d2 < 256) (h3 : d3 < 256) :
    (d0 * 16777216 + d1 * 65536 + d2 * 256 + d3) / 65536 % 128 = d1 % 128 ∧
    (d0 * 16777216 + d1 * 65536 + d2 * 256 + d3) / 256 % 256 = d2 ∧
    (d0 * 16777216 + d1 * 65536 + d2 * 256 + d3) % 256 = d3 ∧
    (d0 * 16777216 + d1 * 65536 + d2 * 256 + d3) % 8388608
      = d1 % 128 * 65536 + d2 * 256 + d3 := by
  have e1 : (d0 * 16777216 + d1 * 65536 + d2 * 256 + d3) / 65536 = d0 * 256 + d1 := by omega
  have e2 : (d0 * 16777216 + d1 * 65536 + d2 * 256 + d3) / 256 = d0 * 65536 + d1 * 256 + d2 := by
    omega
  refine ⟨?_, ?_, ?_, ?_⟩
  · rw [e1]
    omega
  · rw [e2]
    omega
  · omega
  · omega

/-- `ip_eth_mc_map` writes 01:00:5e, then the second address byte without its
top bit, then the third and fourth address bytes: the low 23 bits of the
address. -/
theorem ip_eth_mc_map_bytes (e : Endian) (dst : Nat) (hd : dst < 4294967296) :
    ip_eth_mc_map e dst = [0x01, 0x00, 0x5e, (store32 e dst).getD 1 0 &&& 0x7f,
      (store32 e dst).getD 2 0, (store32 e dst).getD 3 0] ∧
    (ip_eth_mc_map e dst).getD 3 0 * 65536 + (ip_eth_mc_map e dst).getD 4 0 * 256
      + (ip_eth_mc_map e dst).getD 5 0 = ntohl e dst % 8388608 := by
  cases e
  · obtain ⟨l1, l2, l3, l4⟩ := low_bytes (dst % 256) (dst / 256 % 256) (dst / 65536 % 256)
      (dst / 16777216 % 256) (Nat.mod_lt _ (by decide)) (Nat.mod_lt _ (by decide))
    simp only [ip_eth_mc_map, ntohl, swab32, store32, and_7f, and_ff, Nat.shiftRight_eq_div_pow,
      List.getD_cons_zero, List.getD_cons_succ, Nat.reducePow, l1, l2, l3, l4]
    simp
  · have hb : dst = dst / 16777216 % 256 * 16777216 + dst / 65536 % 256 * 65536
        + dst / 256 % 256 * 256 + dst % 256 := by omega
    obtain ⟨l1, l2, l3, l4⟩ := low_bytes (dst / 16777216 % 256) (dst / 65536 % 256)
      (dst / 256 % 256) (dst % 256) (Nat.mod_lt _ (by decide)) (Nat.mod_lt _ (by decide))
    rw [← hb] at l1 l2 l3 l4
    simp only [ip_eth_mc_map, ntohl, store32, and_7f, and_ff, Nat.shiftRight_eq_div_pow,
      List.getD_cons_zero, List.getD_cons_succ, Nat.reducePow, l1, l4]
    simp

/-- The link header of a query that `igmp_query_alloc` built. -/
theorem igmp_query_alloc_eth (k : Kernel) (dev : net_device) (dst code group : Nat)
    (h : k.alloc_skb_ok = true) :
    ∃ skb, igmp_query_alloc k dev dst code group = some skb ∧
      skb.eth = { h_source := dev.dev_addr, h_dest := ip_eth_mc_map k.endian dst,
                  h_proto := htons k.endian ETH_P_IP } := by
  unfold igmp_query_alloc
  simp only [h, if_true]
  exact ⟨_, rfl, rfl⟩

/-- C10: in the query `igmp_query_alloc` builds for destination `dst` the
Ethernet destination is 01:00:5e followed by the second byte of `dst` masked
with 0x7f and its third and fourth bytes, that is the low 23 bits of `dst`;
the Ethernet source is the address of the sending device; the ethertype is
0x0800.  For the general query the destination is 01:00:5e:00:00:01. -/
theorem query_link_header (k : Kernel) (dev : net_device) (dst code group : Nat) (s : State)
    (ha : k.alloc_skb_ok = true) (hd : dst < 4294967296) :
    (∃ skb, igmp_query_alloc k dev dst code group = some skb ∧
      skb.eth.h_dest = [0x01, 0x00, 0x5e, (store32 k.endian dst).getD 1 0 &&& 0x7f,
        (store32 k.endian dst).getD 2 0, (store32 k.endian dst).getD 3 0] ∧
      skb.eth.h_dest.getD 3 0 * 65536 + skb.eth.h_dest.getD 4 0 * 256 + skb.eth.h_dest.getD 5 0
        = ntohl k.endian dst % 2 ^ 23 ∧
      skb.eth.h_source = dev.dev_addr ∧
      ntohs k.endian skb.eth.h_proto = 0x0800 ∧
      store16 k.endian skb.eth.h_proto = [0x08, 0x00]) ∧
    (∃ skb, xmits (igmp_probe_all k dev s).trace = xmits s.trace ++ [skb] ∧
      skb.eth.h_dest = [0x01, 0x00, 0x5e, 0x00, 0x00, 0x01]) := by
  constructor
  · obtain ⟨skb, h1, h2⟩ := igmp_query_alloc_eth k dev dst code group ha
    obtain ⟨m1, m2⟩ := ip_eth_mc_map_bytes k.endian dst hd
    refine ⟨skb, h1, ?_, ?_, ?_, ?_, ?_⟩
    · rw [h2]
      exact m1
    · rw [h2]
      exact m2
    · rw [h2]
    · rw [h2]
      exact ntohs_htons _ _ (by decide)
    · rw [h2]
      exact store16_htons _ _ (by decide)
  · obtain ⟨skb, h1, h2⟩ := igmp_query_alloc_eth k dev (htonl k.endian INADDR_ALLHOSTS_GROUP)
      (htonl k.endian (INTERVAL_QUERY_RESPONSE * IGMP_TIMER_SCALE)) 0 ha
    refine ⟨skb, ?_, ?_⟩
    · simpa [igmp_probe_all] using
        xmits_igmp_query_send k dev _ _ 0 (s.pr .sent_query_all) skb h1
    · have hmap : ∀ e : Endian,
          ip_eth_mc_map e (htonl e INADDR_ALLHOSTS_GROUP) = [0x01, 0x00, 0x5e, 0x00, 0x00, 0x01] := by
        intro e
        cases e <;> decide
      rw [h2]
      exact hmap _

/-- C10 at a query for 239.129.2.3 on a little-endian host. -/
theorem query_link_header_witness :
    (kernel_ok .little).alloc_skb_ok = true ∧ be32_of .little 239 129 2 3 < 4294967296 ∧
    (∃ skb, igmp_query_alloc (kernel_ok .little) dev_down (be32_of .little 239 129 2 3) 100
        (be32_of .little 239 129 2 3) = some skb ∧
      skb.eth.h_dest = [0x01, 0x00, 0x5e,
        (store32 (kernel_ok .little).endian (be32_of .little 239 129 2 3)).getD 1 0 &&& 0x7f,
        (store32 (kernel_ok .little).endian (be32_of .little 239 129 2 3)).getD 2 0,
        (store32 (kernel_ok .little).endian (be32_of .little 239 129 2 3)).getD 3 0] ∧
      skb.eth.h_dest.getD 3 0 * 65536 + skb.eth.h_dest.getD 4 0 * 256 + skb.eth.h_dest.getD 5 0
        = ntohl (kernel_ok .little).endian (be32_of .little 239 129 2 3) % 2 ^ 23 ∧
      skb.eth.h_source = dev_down.dev_addr ∧
      ntohs (kernel_ok .little).endian skb.eth.h_proto = 0x0800 ∧
      store16 (kernel_ok .little).endian skb.eth.h_proto = [0x08, 0x00]) ∧
    (∃ skb, xmits (igmp_probe_all (kernel_ok .little) dev_down state_one).trace
        = xmits state_one.trace ++ [skb] ∧
      skb.eth.h_dest = [0x01, 0x00, 0x5e, 0x00, 0x00, 0x01]) :=
  ⟨rfl, by decide,
    query_link_header (kernel_ok .little) dev_down (be32_of .little 239 129 2 3) 100
      (be32_of .little 239 129 2 3) state_one rfl (by decide)⟩

/-! ## C9: the verdicts of the two hooks -/

/-- C9 as stated fails: an IGMP packet that `ip_mc_check_igmp` rejects (here a
report with a wrong checksum) is answered with `NF_DROP` by `nf_downstream_rcv`. -/
theorem downstream_drops_invalid_igmp :
    (bad_report .little).iph.protocol = IPPROTO_IGMP ∧
    (kernel_ok .little).ip_mc_check_igmp (bad_report .little) < 0 ∧
    nf_downstream_rcv (kernel_ok .little) dev_down (some (bad_report .little)) state_one
      = .ok (NF_DROP, state_one) ∧
    NF_DROP ≠ NF_ACCEPT :=
  ⟨rfl, by decide, by decide, by decide⟩

/-- C9, amended: when `kzalloc` and `skb_clone` return a buffer,
`nf_upstream_rcv` returns `NF_ACCEPT` for every packet (null included) and
every state; `nf_downstream_rcv` returns `NF_ACCEPT` for a null packet, for a
packet that is not IGMP and for an IGMP packet that passes `ip_mc_check_igmp`,
whatever its message type; for an IGMP packet that fails `ip_mc_check_igmp` it
returns `NF_DROP` and leaves the state unchanged. -/
theorem hooks_verdict (k : Kernel) (down : net_device) (skb : Option sk_buff) (s : State)
    (hz : k.kzalloc_ok = true) (hc : k.skb_clone_ok = true) :
    (∃ s1, nf_upstream_rcv k down skb s = .ok (NF_ACCEPT, s1)) ∧
    ((∀ p, skb = some p → p.iph.protocol = IPPROTO_IGMP → 0 ≤ k.ip_mc_check_igmp p) →
      ∃ s1, nf_downstream_rcv k down skb s = .ok (NF_ACCEPT, s1)) ∧
    (∀ p, skb = some p → p.iph.protocol = IPPROTO_IGMP → k.ip_mc_check_igmp p < 0 →
      nf_downstream_rcv k down skb s = .ok (NF_DROP, s)) := by
  have hadd : ∀ (g : Nat) (s0 : State), ∃ s1, router_add_route k g s0 = .ok s1 := by
    intro g s0
    cases hl : rhashtable_lookup_fast s0.route_table g with
    | some r => exact ⟨s0, by simp [router_add_route, hl]⟩
    | none =>
      cases hi : k.rht_insert_err with
      | none =>
        exact ⟨_, by simp [router_add_route, hl, hz, rhashtable_lookup_get_insert_fast, hi]; rfl⟩
      | some errno =>
        exact ⟨_, by simp [router_add_route, hl, hz, rhashtable_lookup_get_insert_fast, hi]; rfl⟩
  have hrep : ∀ (src g : Nat) (s0 : State), ∃ s1, nf_downstream_report k src g s0 = .ok s1 := by
    intro src g s0
    cases hm : ipv4_is_multicast k.endian g with
    | false => exact ⟨_, by simp [nf_downstream_report, hm]; rfl⟩
    | true =>
      obtain ⟨s1, h1⟩ := hadd (ntohl k.endian g) (s0.pr .insert_group)
      exact ⟨s1, by simp [nf_downstream_report, hm, h1]⟩
  refine ⟨?_, ?_, ?_⟩
  · cases skb with
    | none => exact ⟨_, rfl⟩
    | some p =>
      cases hm : ipv4_is_multicast k.endian p.iph.daddr with
      | false => exact ⟨_, by simp [nf_upstream_rcv, hm]; rfl⟩
      | true =>
        cases hl : router_lookup (s.pr .received_multicast) p.iph.daddr with
        | none => exact ⟨_, by simp [nf_upstream_rcv, hm, hl]; rfl⟩
        | some r => exact ⟨_, by simp [nf_upstream_rcv, hm, hl, hc]; rfl⟩
  · intro hv
    cases skb with
    | none => exact ⟨_, rfl⟩
    | some p =>
      by_cases hp : p.iph.protocol = IPPROTO_IGMP
      · have hnn : ¬ k.ip_mc_check_igmp p < 0 := not_lt.mpr (hv p rfl hp)
        by_cases ht : (igmp_hdr k.endian p).type = IGMP_HOST_MEMBERSHIP_REPORT ∨
            (igmp_hdr k.endian p).type = IGMPV2_HOST_MEMBERSHIP_REPORT
        · obtain ⟨s1, h1⟩ := hrep p.iph.saddr (igmp_hdr k.endian p).group (s.pr .received_report)
          exact ⟨s1, by simp [nf_downstream_rcv, hp, hnn, ht, h1]⟩
        · by_cases hl : (igmp_hdr k.endian p).type = IGMP_HOST_LEAVE_MESSAGE
          · exact ⟨_, by simp [nf_downstream_rcv, hp, hnn, ht, hl]; rfl⟩
          · exact ⟨_, by simp [nf_downstream_rcv, hp, hnn, ht, hl]; rfl⟩
      · exact ⟨_, by simp [nf_downstream_rcv, hp]; rfl⟩
  · intro p hs hp hneg
    subst hs
    simp [nf_downstream_rcv, hp, hneg]

/-- C9 (amended) at a valid report for 239.1.1.1: both hooks accept it. -/
theorem hooks_verdict_witness :
    (kernel_ok .little).kzalloc_ok = true ∧ (kernel_ok .little).skb_clone_ok = true ∧
    (good_report .little).iph.protocol = IPPROTO_IGMP ∧
    0 ≤ (kernel_ok .little).ip_mc_check_igmp (good_report .little) ∧
    (∃ s1, nf_upstream_rcv (kernel_ok .little) dev_down (some (good_report .little)) state_one
      = .ok (NF_ACCEPT, s1)) ∧
    (∃ s1, nf_downstream_rcv (kernel_ok .little) dev_down (some (good_report .little)) state_one
      = .ok (NF_ACCEPT, s1)) :=
  ⟨rfl, rfl, rfl, by decide,
    (hooks_verdict (kernel_ok .little) dev_down (some (good_report .little)) state_one
      rfl rfl).1,
    (hooks_verdict (kernel_ok .little) dev_down (some (good_report .little)) state_one
      rfl rfl).2.1 (fun p hp _ => by cases hp; decide)⟩

/-! ## C8: the startup sequence -/

/-- C8 as stated fails: with upstream and downstream set and distinct and the
router and both hooks registered, `kmbridge_init` returns 0 also when the
packet buffer of the general query cannot be allocated, and then no query is
queued at all. -/
theorem startup_without_buffer_sends_no_query :
    dev_up ≠ dev_down ∧ (kernel_no_skb .little).rhashtable_init_ret = 0 ∧
    (kernel_no_skb .little).nf_register_upstream_ret = 0 ∧
    (kernel_no_skb .little).nf_register_downstream_ret = 0 ∧
    (kmbridge_init (kernel_no_skb .little) (some dev_up) (some dev_down) state_empty).1 = 0 ∧
    xmits (kmbridge_init (kernel_no_skb .little) (some dev_up) (some dev_down) state_empty).2.trace
      = [] :=
  ⟨by decide, rfl, rfl, rfl, by decide, by decide⟩

/-- The interface of the join request, evaluated: `kmbridge_init` hands
`downstream` to `igmp_join`, which `igmp.h` documents as joining "on the
upstream network"; the request carries the interface index of the downstream
device, which is not that of the upstream device. -/
theorem kmbridge_init_join_ifindex :
    (kmbridge_init (kernel_ok .little) (some dev_up) (some dev_down) state_empty).1 = 0 ∧
    (kmbridge_init (kernel_ok .little) (some dev_up) (some dev_down) state_empty).2.trace.filter
        Effect.isJoin
      = [.ip_mc_join_group dev_down.ifindex (be32_of .little 224 0 0 2)] ∧
    dev_down.ifindex ≠ dev_up.ifindex :=
  ⟨by decide, by decide, by decide⟩

/-- C8, amended: a successful `kmbridge_init` with the packet buffer
allocated returns 0 with an empty route table, and its calls are, in order:
the initialisation of the table, the registration of the two hooks, one
transmission, which is the general membership query (device downstream, IP
destination 224.0.0.1, IGMP group 0), and then one join request, for the group
224.0.0.2.  Nothing is said about the interface the join request names. -/
theorem kmbridge_init_sequence (k : Kernel) (up down : net_device) (s : State)
    (hne : up ≠ down) (hr : k.rhashtable_init_ret = 0)
    (hu : k.nf_register_upstream_ret = 0) (hd : k.nf_register_downstream_ret = 0)
    (ha : k.alloc_skb_ok = true) :
    ∃ skb ifindex, (kmbridge_init k (some up) (some down) s).1 = 0 ∧
      (kmbridge_init k (some up) (some down) s).2.route_table = [] ∧
      actions (kmbridge_init k (some up) (some down) s).2.trace
        = actions s.trace ++ [.rhashtable_init, .nf_register_net_hook .nf_upstream,
            .nf_register_net_hook .nf_downstream, .dev_queue_xmit skb,
            .ip_mc_join_group ifindex (htonl k.endian INADDR_ALLRTRS_GROUP)] ∧
      skb.dev = down ∧
      skb.iph.daddr = htonl k.endian INADDR_ALLHOSTS_GROUP ∧
      store32 k.endian skb.iph.daddr = [224, 0, 0, 1] ∧
      (igmp_hdr k.endian skb).type = IGMP_HOST_MEMBERSHIP_QUERY ∧
      (igmp_hdr k.endian skb).group = 0 ∧
      store32 k.endian (htonl k.endian INADDR_ALLRTRS_GROUP) = [224, 0, 0, 2] := by
  obtain ⟨skb, h1, h2, h3, _, h5, _, h7, _⟩ :=
    igmp_query_alloc_message k down (htonl k.endian INADDR_ALLHOSTS_GROUP)
      (htonl k.endian (INTERVAL_QUERY_RESPONSE * IGMP_TIMER_SCALE)) 0 ha (by decide)
  refine ⟨skb, down.ifindex, ?_, ?_, ?_, h2, h3, ?_, h5, h7, ?_⟩
  · simp [kmbridge_init, hne, router_init, hr, hu, hd]
  · by_cases hj : k.ip_mc_join_group_ret < 0 <;>
      simp [kmbridge_init, hne, router_init, hr, hu, hd, igmp_probe_all, igmp_query_send, h1,
        igmp_join, hj]
  · by_cases hj : k.ip_mc_join_group_ret < 0 <;>
      simp [kmbridge_init, hne, router_init, hr, hu, hd, igmp_probe_all, igmp_query_send, h1,
        igmp_join, hj, actions, Effect.isPrintk]
  · rw [h3]
    cases k.endian <;> decide
  · cases k.endian <;> decide

/-- C8 (amended) at the sample devices on a little-endian host. -/
theorem kmbridge_init_sequence_witness :
    dev_up ≠ dev_down ∧ (kernel_ok .little).rhashtable_init_ret = 0 ∧
    (kernel_ok .little).nf_register_upstream_ret = 0 ∧
    (kernel_ok .little).nf_register_downstream_ret = 0 ∧
    (kernel_ok .little).alloc_skb_ok = true ∧
    ∃ skb ifindex,
      (kmbridge_init (kernel_ok .little) (some dev_up) (some dev_down) state_one).1 = 0 ∧
      (kmbridge_init (kernel_ok .little) (some dev_up) (some dev_down) state_one).2.route_table
        = [] ∧
      actions (kmbridge_init (kernel_ok .little) (some dev_up) (some dev_down) state_one).2.trace
        = actions state_one.trace ++ [.rhashtable_init, .nf_register_net_hook .nf_upstream,
            .nf_register_net_hook .nf_downstream, .dev_queue_xmit skb,
            .ip_mc_join_group ifindex
              (htonl (kernel_ok .little).endian INADDR_ALLRTRS_GROUP)] ∧
      skb.dev = dev_down ∧
      skb.iph.daddr = htonl (kernel_ok .little).endian INADDR_ALLHOSTS_GROUP ∧
      store32 (kernel_ok .little).endian skb.iph.daddr = [224, 0, 0, 1] ∧
      (igmp_hdr (kernel_ok .little).endian skb).type = IGMP_HOST_MEMBERSHIP_QUERY ∧
      (igmp_hdr (kernel_ok .little).endian skb).group = 0 ∧
      store32 (kernel_ok .little).endian
        (htonl (kernel_ok .little).endian INADDR_ALLRTRS_GROUP) = [224, 0, 0, 2] :=
  ⟨by decide, rfl, rfl, rfl, rfl,
    kmbridge_init_sequence (kernel_ok .little) dev_up dev_down state_one (by decide)
      rfl rfl rfl rfl⟩

/-! ## C11: allocation failure in `router_add_route` -/

/-- C11, evaluated where `kzalloc` returns `NULL`: for every table state and
every group not yet stored, `router_add_route` writes `new_route->group`
through the null pointer; the call ends in a fault instead of returning with
the table unchanged. -/
theorem router_add_route_null_deref (k : Kernel) (G : Nat) (s : State)
    (hz : k.kzalloc_ok = false) (habs : router_lookup s G = none) :
    router_add_route k G s = .error .null_deref := by
  have hl : rhashtable_lookup_fast s.route_table G = none := habs
  simp [router_add_route, hl, hz]

/-- C11 at a table that holds 224.0.0.251, adding 239.1.1.1. -/
theorem router_add_route_null_deref_witness :
    (kernel_no_kzalloc .little).kzalloc_ok = false ∧
    router_lookup state_one (ipv4 239 1 1 1) = none ∧
    router_add_route (kernel_no_kzalloc .little) (ipv4 239 1 1 1) state_one
      = .error .null_deref :=
  ⟨rfl, by decide,
    router_add_route_null_deref (kernel_no_kzalloc .little) (ipv4 239 1 1 1) state_one rfl
      (by decide)⟩

/-! ## C12 and C17: deletion, and the locality of insertion and deletion -/

/-- Unlinking an entry does not change what is found under another key. -/
theorem lookup_erase_other (ht : rhashtable) (r : route) (H : Nat) (h : r.group ≠ H) :
    rhashtable_lookup_fast (ht.erase r) H = rhashtable_lookup_fast ht H := by
  induction ht with
  | nil => rfl
  | cons a t ih =>
    by_cases ha : a = r
    · subst ha
      simp [rhashtable_lookup_fast, List.find?_cons, h]
    · have hne : ¬ (a == r) = true := by simpa using ha
      rw [List.erase_cons_tail hne]
      unfold rhashtable_lookup_fast at ih ⊢
      simp only [List.find?_cons]
      rw [ih]

/-- In a table with unique keys, nothing is found under the key of an entry
once the entry is unlinked. -/
theorem lookup_erase_self (ht : rhashtable) (r : route) (hwf : keys_unique ht) (hr : r ∈ ht) :
    rhashtable_lookup_fast (ht.erase r) r.group = none := by
  induction ht with
  | nil => rfl
  | cons a t ih =>
    have hnd : a.group ∉ route_keys t ∧ keys_unique t := by
      simpa [keys_unique, route_keys] using hwf
    by_cases ha : a = r
    · subst ha
      simp only [List.erase_cons_head]
      exact (lookup_none_iff _ _).mpr hnd.1
    · have hne : ¬ (a == r) = true := by simpa using ha
      have hrt : r ∈ t := by
        cases hr with
        | head => exact absurd rfl ha
        | tail _ h => exact h
      have hkey : a.group ≠ r.group := by
        intro heq
        exact hnd.1 (heq ▸ List.mem_map.mpr ⟨r, hrt, rfl⟩)
      rw [List.erase_cons_tail hne]
      have := ih hnd.2 hrt
      unfold rhashtable_lookup_fast at this ⊢
      have hb : (a.group == r.group) = false := by simpa using hkey
      simp only [List.find?_cons, hb, this]

/-- C12: on a table with unique keys, `router_lookup(G)` returns no route
after `router_delete_route(G)`; and `router_delete_route(G)` leaves the state
unchanged when no route is stored for `G`. -/
theorem delete_then_lookup (G : Nat) (s : State) (hwf : keys_unique s.route_table) :
    router_lookup (router_delete_route G s) G = none ∧
    (router_lookup s G = none → router_delete_route G s = s) := by
  constructor
  · cases hl : rhashtable_lookup_fast s.route_table G with
    | none => simp [router_delete_route, hl, router_lookup]
    | some r =>
      obtain ⟨hmem, hkey⟩ := lookup_some_key _ _ _ hl
      have := lookup_erase_self s.route_table r hwf hmem
      rw [hkey] at this
      simpa [router_delete_route, hl, router_lookup, rhashtable_remove_fast] using this
  · intro hl
    have hl2 : rhashtable_lookup_fast s.route_table G = none := hl
    simp [router_delete_route, hl2]

/-- C12 at a table that holds 239.1.1.1 and 224.0.0.251, deleting 239.1.1.1. -/
theorem delete_then_lookup_witness :
    keys_unique state_two.route_table ∧
    router_lookup state_two (ipv4 239 1 1 1) ≠ none ∧
    router_lookup (router_delete_route (ipv4 239 1 1 1) state_two) (ipv4 239 1 1 1) = none ∧
    (router_lookup state_two (ipv4 239 1 1 1) = none →
      router_delete_route (ipv4 239 1 1 1) state_two = state_two) :=
  ⟨by decide, by decide, delete_then_lookup (ipv4 239 1 1 1) state_two (by decide)⟩

/-- Deletion keeps the keys unique. -/
theorem router_delete_route_keys_unique (G : Nat) (s : State)
    (hwf : keys_unique s.route_table) : keys_unique (router_delete_route G s).route_table := by
  unfold router_delete_route
  cases rhashtable_lookup_fast s.route_table G with
  | none => exact hwf
  | some r =>
    simp only [rhashtable_remove_fast]
    exact List.Nodup.sublist (List.Sublist.map _ (List.erase_sublist r s.route_table)) hwf

/-- What `router_add_route` returns: the state itself when the group is
stored, a fault when it is not and `kzalloc` fails, the state with a printed
message when the table refuses the insertion, and else the state with the new
route in front. -/
theorem router_add_route_cases (k : Kernel) (G : Nat) (s : State) :
    (router_lookup s G ≠ none ∧ router_add_route k G s = .ok s) ∨
    (router_lookup s G = none ∧ k.kzalloc_ok = false ∧
      router_add_route k G s = .error .null_deref) ∨
    (router_lookup s G = none ∧ k.kzalloc_ok = true ∧ k.rht_insert_err ≠ none ∧
      router_add_route k G s = .ok (s.pr .insert_failed)) ∨
    (router_lookup s G = none ∧ k.kzalloc_ok = true ∧ k.rht_insert_err = none ∧
      router_add_route k G s = .ok { s with route_table :=
        { group := G, ref := 0, age_value := 0, age_activity := 0 } :: s.route_table }) := by
  cases hl : rhashtable_lookup_fast s.route_table G with
  | some r =>
    left
    exact ⟨by simp [router_lookup, hl], by simp [router_add_route, hl]⟩
  | none =>
    right
    have hl2 : router_lookup s G = none := hl
    cases hz : k.kzalloc_ok with
    | false =>
      left
      exact ⟨hl2, rfl, by simp [router_add_route, hl, hz]⟩
    | true =>
      right
      cases hi : k.rht_insert_err with
      | some errno =>
        left
        exact ⟨hl2, rfl, by simp,
          by simp [router_add_route, hl, hz, hi, rhashtable_lookup_get_insert_fast]⟩
      | none =>
        right
        exact ⟨hl2, rfl, rfl,
          by simp [router_add_route, hl, hz, hi, rhashtable_lookup_get_insert_fast]⟩

/-- Whenever `router_add_route(G)` returns, lookups under other keys are as before. -/
theorem router_add_route_lookup_other (k : Kernel) (G H : Nat) (s s1 : State) (hne : G ≠ H)
    (h : router_add_route k G s = .ok s1) : router_lookup s1 H = router_lookup s H := by
  have hb : (G == H) = false := by simpa using hne
  rcases router_add_route_cases k G s with ⟨_, h1⟩ | ⟨_, _, h1⟩ | ⟨_, _, _, h1⟩ | ⟨_, _, _, h1⟩
  · rw [h1] at h
    cases h
    rfl
  · rw [h1] at h
    cases h
  · rw [h1] at h
    cases h
    rfl
  · rw [h1] at h
    cases h
    simp [router_lookup, rhashtable_lookup_fast, List.find?_cons, hb]

/-- C17: for `G ≠ H`, `router_add_route(G)` either returns, and then
`router_lookup(H)` gives what it gave before, or it faults, which happens
exactly when `G` is not stored and `kzalloc` fails; it returns whenever
`kzalloc` succeeds.  After `router_delete_route(G)`, `router_lookup(H)` gives
what it gave before. -/
theorem lookup_local_to_key (k : Kernel) (G H : Nat) (s : State) (hne : G ≠ H) :
    ((∃ s1, router_add_route k G s = .ok s1 ∧ router_lookup s1 H = router_lookup s H) ∨
      (router_add_route k G s = .error .null_deref ∧ k.kzalloc_ok = false ∧
        router_lookup s G = none)) ∧
    (k.kzalloc_ok = true → ∃ s1, router_add_route k G s = .ok s1 ∧
      router_lookup s1 H = router_lookup s H) ∧
    router_lookup (router_delete_route G s) H = router_lookup s H := by
  have hadd : (∃ s1, router_add_route k G s = .ok s1 ∧ router_lookup s1 H = router_lookup s H) ∨
      (router_add_route k G s = .error .null_deref ∧ k.kzalloc_ok = false ∧
        router_lookup s G = none) := by
    rcases router_add_route_cases k G s with ⟨_, h1⟩ | ⟨h0, hz, h1⟩ | ⟨_, _, _, h1⟩ | ⟨_, _, _, h1⟩
    · exact Or.inl ⟨_, h1, router_add_route_lookup_other k G H s _ hne h1⟩
    · exact Or.inr ⟨h1, hz, h0⟩
    · exact Or.inl ⟨_, h1, router_add_route_lookup_other k G H s _ hne h1⟩
    · exact Or.inl ⟨_, h1, router_add_route_lookup_other k G H s _ hne h1⟩
  refine ⟨hadd, ?_, ?_⟩
  · intro hz
    rcases hadd with h | ⟨_, hz2, _⟩
    · exact h
    · rw [hz] at hz2
      cases hz2
  · cases hl : rhashtable_lookup_fast s.route_table G with
    | none => simp [router_delete_route, hl]
    | some r =>
      obtain ⟨_, hkey⟩ := lookup_some_key _ _ _ hl
      have := lookup_erase_other s.route_table r H (by rw [hkey]; exact hne)
      simpa [router_delete_route, hl, router_lookup, rhashtable_remove_fast] using this

/-- C17 at a table that holds 239.1.1.1 and 224.0.0.251, with G = 239.1.1.1
and H = 224.0.0.251. -/
theorem lookup_local_to_key_witness :
    ipv4 239 1 1 1 ≠ ipv4 224 0 0 251 ∧
    ((∃ s1, router_add_route (kernel_ok .big) (ipv4 239 1 1 1) state_two = .ok s1 ∧
        router_lookup s1 (ipv4 224 0 0 251) = router_lookup state_two (ipv4 224 0 0 251)) ∨
      (router_add_route (kernel_ok .big) (ipv4 239 1 1 1) state_two = .error .null_deref ∧
        (kernel_ok .big).kzalloc_ok = false ∧
        router_lookup state_two (ipv4 239 1 1 1) = none)) ∧
    ((kernel_ok .big).kzalloc_ok = true →
      ∃ s1, router_add_route (kernel_ok .big) (ipv4 239 1 1 1) state_two = .ok s1 ∧
        router_lookup s1 (ipv4 224 0 0 251) = router_lookup state_two (ipv4 224 0 0 251)) ∧
    router_lookup (router_delete_route (ipv4 239 1 1 1) state_two) (ipv4 224 0 0 251)
      = router_lookup state_two (ipv4 224 0 0 251) :=
  ⟨by decide,
    lookup_local_to_key (kernel_ok .big) (ipv4 239 1 1 1) (ipv4 224 0 0 251) state_two
      (by decide)⟩

/-! ## C13: the forwarding filter -/

/-- When `skb_clone` returns a copy, `nf_upstream_rcv` accepts the packet and
leaves the route table unchanged; it queues a packet exactly when the
destination is multicast and `router_lookup` of the destination returns a
route, and then it queues one packet: the original with `dev` set to the
downstream device. -/
theorem forwarding_filter_when_cloned (k : Kernel) (down : net_device) (skb : Option sk_buff)
    (s : State) (hc : k.skb_clone_ok = true) :
    ∃ s1, nf_upstream_rcv k down skb s = .ok (NF_ACCEPT, s1) ∧
      s1.route_table = s.route_table ∧
      (∀ p, skb = some p → ipv4_is_multicast k.endian p.iph.daddr = true →
        router_lookup s p.iph.daddr ≠ none →
        xmits s1.trace = xmits s.trace ++ [{ p with dev := down }]) ∧
      ((∀ p, skb = some p → ¬ (ipv4_is_multicast k.endian p.iph.daddr = true ∧
          router_lookup s p.iph.daddr ≠ none)) →
        xmits s1.trace = xmits s.trace) := by
  cases skb with
  | none =>
    exact ⟨s, rfl, rfl, fun p hp => Option.noConfusion hp, fun _ => rfl⟩
  | some p =>
    cases hm : ipv4_is_multicast k.endian p.iph.daddr with
    | false =>
      refine ⟨s, by simp [nf_upstream_rcv, hm], rfl, ?_, fun _ => rfl⟩
      intro q hq hmq
      cases hq
      rw [hm] at hmq
      cases hmq
    | true =>
      cases hl : router_lookup s p.iph.daddr with
      | none =>
        have hl2 : router_lookup (s.pr .received_multicast) p.iph.daddr = none := hl
        refine ⟨s.pr .received_multicast, by simp [nf_upstream_rcv, hm, hl2], rfl, ?_, ?_⟩
        · intro q hq _ hr
          cases hq
          exact absurd hl hr
        · intro _
          simp
      | some r =>
        have hl2 : router_lookup (s.pr .received_multicast) p.iph.daddr = some r := hl
        refine ⟨((s.pr .received_multicast).pr .routing_multicast).emit
          (.dev_queue_xmit { p with dev := down }),
          by simp [nf_upstream_rcv, hm, hl2, hc], rfl, ?_, ?_⟩
        · intro q hq _ _
          cases hq
          simp [xmits_append, xmits]
        · intro hno
          exact absurd ⟨hm, by simp [hl]⟩ (hno p rfl)

/-- C13, evaluated where `skb_clone` returns `NULL`: for a packet whose
destination is multicast and routed, `nf_upstream_rcv` writes `copy->dev`
through the null pointer; the call ends in a fault and no copy is queued. -/
theorem forwarding_filter_clone_null_deref (k : Kernel) (down : net_device) (p : sk_buff)
    (s : State) (hc : k.skb_clone_ok = false)
    (hm : ipv4_is_multicast k.endian p.iph.daddr = true)
    (hr : router_lookup s p.iph.daddr ≠ none) :
    nf_upstream_rcv k down (some p) s = .error .null_deref := by
  cases hl : router_lookup s p.iph.daddr with
  | none => exact absurd hl hr
  | some r =>
    have hl2 : router_lookup (s.pr .received_multicast) p.iph.daddr = some r := hl
    simp [nf_upstream_rcv, hm, hl2, hc]

/-- C13 at a data packet for 239.1.1.1 on a big-endian host whose table holds
239.1.1.1. -/
theorem forwarding_filter_clone_null_deref_witness :
    (kernel_no_clone .big).skb_clone_ok = false ∧
    ipv4_is_multicast (kernel_no_clone .big).endian
      (data_packet .big dev_up (be32_of .big 10 0 0 1) (be32_of .big 239 1 1 1)).iph.daddr
      = true ∧
    router_lookup state_two
      (data_packet .big dev_up (be32_of .big 10 0 0 1) (be32_of .big 239 1 1 1)).iph.daddr
      ≠ none ∧
    nf_upstream_rcv (kernel_no_clone .big) dev_down
      (some (data_packet .big dev_up (be32_of .big 10 0 0 1) (be32_of .big 239 1 1 1)))
      state_two = .error .null_deref :=
  ⟨rfl, by decide, by decide,
    forwarding_filter_clone_null_deref (kernel_no_clone .big) dev_down
      (data_packet .big dev_up (be32_of .big 10 0 0 1) (be32_of .big 239 1 1 1)) state_two
      rfl (by decide) (by decide)⟩

/-! ## C15: the dispatch on the message type -/

theorem getD_lt_of_bytes_ok (buf : List Nat) (hb : bytes_ok buf) (i : Nat) :
    buf.getD i 0 < 256 := by
  rw [List.getD_eq_getElem?_getD]
  cases h : buf[i]? with
  | none => simp
  | some b =>
    simp only [Option.getD_some]
    exact hb b (List.getElem?_mem h)

/-- The group of a message made of bytes is a 32-bit value. -/
theorem igmp_hdr_group_lt (e : Endian) (p : sk_buff) (hb : bytes_ok p.transport) :
    (igmp_hdr e p).group < 4294967296 := by
  have h4 := getD_lt_of_bytes_ok _ hb 4
  have h5 := getD_lt_of_bytes_ok _ hb 5
  have h6 := getD_lt_of_bytes_ok _ hb 6
  have h7 := getD_lt_of_bytes_ok _ hb 7
  cases e <;> simp only [igmp_hdr, load32] <;> omega

/-- What `nf_downstream_report` does for a multicast group: it returns what
`router_add_route` returns for the host-order key, after one printed message. -/
theorem nf_downstream_report_multicast (k : Kernel) (src G : Nat) (s : State)
    (hm : ipv4_is_multicast k.endian G = true) :
    nf_downstream_report k src G s
      = router_add_route k (ntohl k.endian G) (s.pr .insert_group) := by
  simp [nf_downstream_report, hm]

/-- Whenever `router_add_route` returns, it has added no call other than a
printed message, it has not removed a route, and its result holds only the
old keys and possibly the new key. -/
theorem router_add_route_frame (k : Kernel) (G : Nat) (s s1 : State)
    (h : router_add_route k G s = .ok s1) :
    actions s1.trace = actions s.trace ∧ xmits s1.trace = xmits s.trace ∧
    (∀ H, router_lookup s H ≠ none → router_lookup s1 H ≠ none) ∧
    (∀ key ∈ route_keys s1.route_table, key = G ∨ key ∈ route_keys s.route_table) := by
  rcases router_add_route_cases k G s with ⟨_, h1⟩ | ⟨_, _, h1⟩ | ⟨_, _, _, h1⟩ | ⟨_, _, _, h1⟩
  · rw [h1] at h
    cases h
    exact ⟨rfl, rfl, fun _ hH => hH, fun key hk => Or.inr hk⟩
  · rw [h1] at h
    cases h
  · rw [h1] at h
    cases h
    exact ⟨by simp, by simp, fun _ hH => hH, fun key hk => Or.inr hk⟩
  · rw [h1] at h
    cases h
    refine ⟨rfl, rfl, ?_, ?_⟩
    · intro H hH
      simp only [router_lookup, rhashtable_lookup_fast, List.find?_cons] at hH ⊢
      split
      · simp
      · exact hH
    · intro key hk
      simpa [route_keys] using hk

/-- When the group is stored, or the entry can be allocated and inserted,
`router_add_route` returns and the group is stored afterwards. -/
theorem router_add_route_stores (k : Kernel) (G : Nat) (s : State)
    (hz : k.kzalloc_ok = true) (hi : k.rht_insert_err = none) :
    ∃ s1, router_add_route k G s = .ok s1 ∧ router_lookup s1 G ≠ none := by
  rcases router_add_route_cases k G s with ⟨h0, h1⟩ | ⟨_, hz2, _⟩ | ⟨_, _, hi2, _⟩ | ⟨_, _, _, h1⟩
  · exact ⟨s, h1, h0⟩
  · rw [hz] at hz2
    cases hz2
  · exact absurd hi hi2
  · exact ⟨_, h1, by simp [router_lookup, rhashtable_lookup_fast]⟩

/-- C15 as stated fails: a validated leave message (type 0x17) whose group
10.0.0.1 is not multicast is accepted without any packet being queued. -/
theorem leave_for_unicast_group_sends_nothing :
    (leave_unicast .little).iph.protocol = IPPROTO_IGMP ∧
    0 ≤ (kernel_ok .little).ip_mc_check_igmp (leave_unicast .little) ∧
    (igmp_hdr .little (leave_unicast .little)).type = IGMP_HOST_LEAVE_MESSAGE ∧
    ∃ s1, nf_downstream_rcv (kernel_ok .little) dev_down (some (leave_unicast .little))
        state_one = .ok (NF_ACCEPT, s1) ∧
      xmits s1.trace = [] :=
  ⟨rfl, by decide, by decide, _, rfl, by decide⟩

/-- C15, amended: for an IGMP packet that passes `ip_mc_check_igmp`,
(1) a report of type 0x12 or 0x16 is handled the same way: when its group is
not multicast nothing changes but the printed messages; when it is multicast
and the entry can be allocated and inserted, the hook accepts, a route is
stored under `ntohl(group)` afterwards, lookups under other keys are as
before, and no packet is queued;
(2) a leave (0x17) is accepted with the route table unchanged; it queues one
query, on the downstream device, with IP destination and IGMP group equal to
the group of the message, when that group is multicast and the packet buffer
is allocated, and it queues nothing otherwise;
(3) any other type is accepted with the route table unchanged and nothing
queued.
A packet whose protocol is not IGMP is accepted with the state unchanged. -/
theorem downstream_dispatch (k : Kernel) (down : net_device) (p : sk_buff) (s : State)
    (hp : p.iph.protocol = IPPROTO_IGMP) (hv : 0 ≤ k.ip_mc_check_igmp p)
    (hb : bytes_ok p.transport) :
    ((igmp_hdr k.endian p).type = IGMP_HOST_MEMBERSHIP_REPORT ∨
        (igmp_hdr k.endian p).type = IGMPV2_HOST_MEMBERSHIP_REPORT →
      (ipv4_is_multicast k.endian (igmp_hdr k.endian p).group = false →
        ∃ s1, nf_downstream_rcv k down (some p) s = .ok (NF_ACCEPT, s1) ∧
          s1.route_table = s.route_table ∧ actions s1.trace = actions s.trace) ∧
      (ipv4_is_multicast k.endian (igmp_hdr k.endian p).group = true →
        k.kzalloc_ok = true → k.rht_insert_err = none →
        ∃ s1, nf_downstream_rcv k down (some p) s = .ok (NF_ACCEPT, s1) ∧
          router_lookup s1 (ntohl k.endian (igmp_hdr k.endian p).group) ≠ none ∧
          (∀ H, H ≠ ntohl k.endian (igmp_hdr k.endian p).group →
            router_lookup s1 H = router_lookup s H) ∧
          actions s1.trace = actions s.trace)) ∧
    ((igmp_hdr k.endian p).type = IGMP_HOST_LEAVE_MESSAGE →
      ∃ s1, nf_downstream_rcv k down (some p) s = .ok (NF_ACCEPT, s1) ∧
        s1.route_table = s.route_table ∧
        (ipv4_is_multicast k.endian (igmp_hdr k.endian p).group = true →
          k.alloc_skb_ok = true →
          ∃ skb, actions s1.trace = actions s.trace ++ [.dev_queue_xmit skb] ∧
            skb.dev = down ∧ skb.iph.daddr = (igmp_hdr k.endian p).group ∧
            (igmp_hdr k.endian skb).type = IGMP_HOST_MEMBERSHIP_QUERY ∧
            (igmp_hdr k.endian skb).group = (igmp_hdr k.endian p).group) ∧
        (ipv4_is_multicast k.endian (igmp_hdr k.endian p).group = false ∨
            k.alloc_skb_ok = false →
          actions s1.trace = actions s.trace)) ∧
    ((igmp_hdr k.endian p).type ≠ IGMP_HOST_MEMBERSHIP_REPORT →
      (igmp_hdr k.endian p).type ≠ IGMPV2_HOST_MEMBERSHIP_REPORT →
      (igmp_hdr k.endian p).type ≠ IGMP_HOST_LEAVE_MESSAGE →
      ∃ s1, nf_downstream_rcv k down (some p) s = .ok (NF_ACCEPT, s1) ∧
        s1.route_table = s.route_table ∧ actions s1.trace = actions s.trace) ∧
    (∀ q : sk_buff, q.iph.protocol ≠ IPPROTO_IGMP →
      nf_downstream_rcv k down (some q) s = .ok (NF_ACCEPT, s)) := by
  have hnn : ¬ k.ip_mc_check_igmp p < 0 := not_lt.mpr hv
  have hg := igmp_hdr_group_lt k.endian p hb
  refine ⟨?_, ?_, ?_, ?_⟩
  · intro ht
    constructor
    · intro hm
      refine ⟨(s.pr .received_report).pr .drop_report_invalid_group, ?_, rfl,
        by simp [actions, Effect.isPrintk]⟩
      simp [nf_downstream_rcv, hp, hnn, ht, nf_downstream_report, hm]
    · intro hm hz hi
      obtain ⟨s1, h1, h2⟩ := router_add_route_stores k
        (ntohl k.endian (igmp_hdr k.endian p).group)
        ((s.pr .received_report).pr .insert_group) hz hi
      obtain ⟨f1, _, _, _⟩ := router_add_route_frame k _ _ s1 h1
      refine ⟨s1, ?_, h2, ?_, ?_⟩
      · simp [nf_downstream_rcv, hp, hnn, ht, nf_downstream_report_multicast k _ _ _ hm, h1]
      · intro H hH
        exact (router_add_route_lookup_other k _ H _ s1 (Ne.symm hH) h1).trans rfl
      · rw [f1]
        simp [actions, Effect.isPrintk]
  · intro ht
    have ht1 : ¬ (IGMP_HOST_LEAVE_MESSAGE = IGMP_HOST_MEMBERSHIP_REPORT ∨
        IGMP_HOST_LEAVE_MESSAGE = IGMPV2_HOST_MEMBERSHIP_REPORT) := by
      decide
    refine ⟨nf_downstream_leave k down p.iph.saddr (igmp_hdr k.endian p).group
      (s.pr .host_leave), ?_, ?_, ?_, ?_⟩
    · simp [nf_downstream_rcv, hp, hnn, ht1, ht]
    · cases hm : ipv4_is_multicast k.endian (igmp_hdr k.endian p).group with
      | false => simp [nf_downstream_leave, hm]
      | true =>
        simp only [nf_downstream_leave, hm, igmp_probe, igmp_query_send]
        cases igmp_query_alloc k down (igmp_hdr k.endian p).group
          (htonl k.endian (INTERVAL_QUERY_RESPONSE * IGMP_TIMER_SCALE))
          (igmp_hdr k.endian p).group <;> rfl
    · intro hm ha
      obtain ⟨skb, h1, h2, h3, _, h5, _, h7, _⟩ :=
        igmp_query_alloc_message k down (igmp_hdr k.endian p).group
          (htonl k.endian (INTERVAL_QUERY_RESPONSE * IGMP_TIMER_SCALE))
          (igmp_hdr k.endian p).group ha hg
      refine ⟨skb, ?_, h2, h3, h5, h7⟩
      simp [nf_downstream_leave, hm, igmp_probe, igmp_query_send, h1, actions, Effect.isPrintk]
    · intro h
      rcases h with hm | ha
      · simp [nf_downstream_leave, hm, actions, Effect.isPrintk]
      · cases hm : ipv4_is_multicast k.endian (igmp_hdr k.endian p).group with
        | false => simp [nf_downstream_leave, hm, actions, Effect.isPrintk]
        | true =>
          simp [nf_downstream_leave, hm, igmp_probe, igmp_query_send, igmp_query_alloc, ha,
            actions, Effect.isPrintk]
  · intro h1 h2 h3
    refine ⟨s.pr .ignoring_unknown_type, ?_, rfl, by simp [actions, Effect.isPrintk]⟩
    simp [nf_downstream_rcv, hp, hnn, h1, h2, h3]
  · intro q hq
    simp [nf_downstream_rcv, hq]

/-- C15 (amended) at a valid version 2 report for 239.1.1.1. -/
theorem downstream_dispatch_witness :
    (good_report .little).iph.protocol = IPPROTO_IGMP ∧
    0 ≤ (kernel_ok .little).ip_mc_check_igmp (good_report .little) ∧
    bytes_ok (good_report .little).transport ∧
    (igmp_hdr (kernel_ok .little).endian (good_report .little)).type
      = IGMPV2_HOST_MEMBERSHIP_REPORT ∧
    ∃ s1, nf_downstream_rcv (kernel_ok .little) dev_down (some (good_report .little)) state_one
        = .ok (NF_ACCEPT, s1) ∧
      router_lookup s1 (ntohl (kernel_ok .little).endian
        (igmp_hdr (kernel_ok .little).endian (good_report .little)).group) ≠ none ∧
      (∀ H, H ≠ ntohl (kernel_ok .little).endian
          (igmp_hdr (kernel_ok .little).endian (good_report .little)).group →
        router_lookup s1 H = router_lookup state_one H) ∧
      actions s1.trace = actions state_one.trace :=
  ⟨rfl, by decide, by decide, by decide,
    ((downstream_dispatch (kernel_ok .little) dev_down (good_report .little) state_one rfl
      (by decide) (by decide)).1 (Or.inr (by decide))).2 (by decide) rfl rfl⟩

/-! ## C16 and C18: sequences of deliveries -/

/-- Whenever `nf_upstream_rcv` returns, the route table is as before. -/
theorem nf_upstream_rcv_route_table (k : Kernel) (down : net_device) (skb : Option sk_buff)
    (s s1 : State) (v : Nat) (h : nf_upstream_rcv k down skb s = .ok (v, s1)) :
    s1.route_table = s.route_table := by
  cases skb with
  | none =>
    simp only [nf_upstream_rcv, Except.ok.injEq, Prod.mk.injEq] at h
    rw [← h.2]
  | some p =>
    cases hm : ipv4_is_multicast k.endian p.iph.daddr with
    | false =>
      simp only [nf_upstream_rcv, hm, Bool.not_false, if_true, Except.ok.injEq,
        Prod.mk.injEq] at h
      rw [← h.2]
    | true =>
      cases hl : router_lookup (s.pr .received_multicast) p.iph.daddr with
      | none =>
        simp [nf_upstream_rcv, hm, hl] at h
        rw [← h.2]
        rfl
      | some r =>
        cases hc : k.skb_clone_ok with
        | false => simp [nf_upstream_rcv, hm, hl, hc] at h
        | true =>
          simp [nf_upstream_rcv, hm, hl, hc] at h
          rw [← h.2]
          rfl

/-- Whenever `nf_downstream_rcv` returns, no route has been removed, and a
key that is new in the table is `ntohl` of the multicast group of the message. -/
theorem nf_downstream_rcv_frame (k : Kernel) (down : net_device) (skb : Option sk_buff)
    (s s1 : State) (v : Nat) (h : nf_downstream_rcv k down skb s = .ok (v, s1)) :
    (∀ H, router_lookup s H ≠ none → router_lookup s1 H ≠ none) ∧
    (∀ key ∈ route_keys s1.route_table, key ∈ route_keys s.route_table ∨
      ∃ p, skb = some p ∧ ipv4_is_multicast k.endian (igmp_hdr k.endian p).group = true ∧
        key = ntohl k.endian (igmp_hdr k.endian p).group) := by
  have hsame : s1.route_table = s.route_table →
      (∀ H, router_lookup s H ≠ none → router_lookup s1 H ≠ none) ∧
      (∀ key ∈ route_keys s1.route_table, key ∈ route_keys s.route_table ∨
        ∃ p, skb = some p ∧ ipv4_is_multicast k.endian (igmp_hdr k.endian p).group = true ∧
          key = ntohl k.endian (igmp_hdr k.endian p).group) := by
    intro heq
    refine ⟨fun H hH => ?_, fun key hk => Or.inl ?_⟩
    · simpa [router_lookup, heq] using hH
    · simpa [heq] using hk
  cases skb with
  | none =>
    simp only [nf_downstream_rcv, Except.ok.injEq, Prod.mk.injEq] at h
    exact hsame (by rw [← h.2])
  | some p =>
    by_cases hp : p.iph.protocol = IPPROTO_IGMP
    · by_cases hneg : k.ip_mc_check_igmp p < 0
      · simp [nf_downstream_rcv, hp, hneg] at h
        exact hsame (by rw [← h.2])
      · by_cases ht : (igmp_hdr k.endian p).type = IGMP_HOST_MEMBERSHIP_REPORT ∨
            (igmp_hdr k.endian p).type = IGMPV2_HOST_MEMBERSHIP_REPORT
        · cases hm : ipv4_is_multicast k.endian (igmp_hdr k.endian p).group with
          | false =>
            simp [nf_downstream_rcv, hp, hneg, ht, nf_downstream_report, hm] at h
            exact hsame (by rw [← h.2]; rfl)
          | true =>
            simp only [nf_downstream_rcv, hp, hneg, ht, ne_eq, not_true_eq_false, if_false,
              if_true, nf_downstream_report_multicast k _ _ _ hm] at h
            cases hr : router_add_route k (ntohl k.endian (igmp_hdr k.endian p).group)
                ((s.pr .received_report).pr .insert_group) with
            | error f => simp [hr] at h
            | ok s2 =>
              simp only [hr, Except.ok.injEq, Prod.mk.injEq] at h
              obtain ⟨_, _, f3, f4⟩ := router_add_route_frame k _ _ s2 hr
              rw [← h.2]
              refine ⟨fun H hH => f3 H hH, fun key hk => ?_⟩
              rcases f4 key hk with h5 | h5
              · exact Or.inr ⟨p, rfl, hm, h5⟩
              · exact Or.inl h5
        · by_cases hl : (igmp_hdr k.endian p).type = IGMP_HOST_LEAVE_MESSAGE
          · have hk : ¬ (IGMP_HOST_LEAVE_MESSAGE = IGMP_HOST_MEMBERSHIP_REPORT ∨
                IGMP_HOST_LEAVE_MESSAGE = IGMPV2_HOST_MEMBERSHIP_REPORT) := by
              decide
            simp only [nf_downstream_rcv, hp, hneg, hl, hk, ne_eq, not_true_eq_false, if_false,
              if_true, Except.ok.injEq, Prod.mk.injEq] at h
            refine hsame ?_
            rw [← h.2]
            cases hm : ipv4_is_multicast k.endian (igmp_hdr k.endian p).group with
            | false => simp [nf_downstream_leave, hm]
            | true =>
              simp only [nf_downstream_leave, hm, igmp_probe, igmp_query_send]
              cases igmp_query_alloc k down (igmp_hdr k.endian p).group
                (htonl k.endian (INTERVAL_QUERY_RESPONSE * IGMP_TIMER_SCALE))
                (igmp_hdr k.endian p).group <;> rfl
          · simp [nf_downstream_rcv, hp, hneg, ht, hl] at h
            exact hsame (by rw [← h.2]; rfl)
    · simp [nf_downstream_rcv, hp] at h
      exact hsame (by rw [← h.2])

/-- Whenever a delivery returns, every group that was routed is still routed. -/
theorem deliver_keeps_routes (down : net_device) (d : Delivery) (s s1 : State) (v : Nat)
    (h : deliver down d s = .ok (v, s1)) :
    ∀ G, router_lookup s G ≠ none → router_lookup s1 G ≠ none := by
  unfold deliver at h
  cases hrx : d.rx with
  | upstream skb =>
    rw [hrx] at h
    have := nf_upstream_rcv_route_table _ _ _ _ _ _ h
    intro G hG
    simpa [router_lookup, this] using hG
  | downstream skb =>
    rw [hrx] at h
    exact (nf_downstream_rcv_frame _ _ _ _ _ _ h).1

/-- Whenever a delivery of a packet made of bytes returns, a table whose keys
are class-D values still has only class-D keys. -/
theorem deliver_keeps_class_d (down : net_device) (d : Delivery) (s s1 : State) (v : Nat)
    (h : deliver down d s = .ok (v, s1))
    (hb : ∀ p, d.rx.skb = some p → bytes_ok p.transport)
    (hs : ∀ key ∈ route_keys s.route_table, class_d key) :
    ∀ key ∈ route_keys s1.route_table, class_d key := by
  unfold deliver at h
  cases hrx : d.rx with
  | upstream skb =>
    rw [hrx] at h
    have := nf_upstream_rcv_route_table _ _ _ _ _ _ h
    rw [this]
    exact hs
  | downstream skb =>
    rw [hrx] at h
    intro key hk
    rcases (nf_downstream_rcv_frame _ _ _ _ _ _ h).2 key hk with h1 | ⟨p, hp, hm, hkey⟩
    · exact hs key h1
    · have hbp : bytes_ok p.transport := hb p (by rw [hrx]; exact hp)
      have hg := igmp_hdr_group_lt d.kernel.endian p hbp
      rw [hkey]
      exact (ipv4_is_multicast_iff _ _ hg).mp hm

/-- `router_add_route` returns when `kzalloc` returns an entry. -/
theorem router_add_route_returns (k : Kernel) (G : Nat) (s : State)
    (hz : k.kzalloc_ok = true) : ∃ s1, router_add_route k G s = .ok s1 := by
  rcases router_add_route_cases k G s with ⟨_, h1⟩ | ⟨_, hz2, _⟩ | ⟨_, _, _, h1⟩ | ⟨_, _, _, h1⟩
  · exact ⟨_, h1⟩
  · rw [hz] at hz2
    cases hz2
  · exact ⟨_, h1⟩
  · exact ⟨_, h1⟩

/-- A delivery returns when `kzalloc` and `skb_clone` return a buffer. -/
theorem deliver_returns (down : net_device) (d : Delivery) (s : State)
    (hz : d.kernel.kzalloc_ok = true) (hc : d.kernel.skb_clone_ok = true) :
    ∃ v s1, deliver down d s = .ok (v, s1) := by
  unfold deliver
  cases d.rx with
  | upstream skb =>
    obtain ⟨s1, h1, _⟩ := forwarding_filter_when_cloned d.kernel down skb s hc
    exact ⟨_, s1, h1⟩
  | downstream skb =>
    cases skb with
    | none => exact ⟨_, _, rfl⟩
    | some p =>
      by_cases hp : p.iph.protocol = IPPROTO_IGMP
      · by_cases hneg : d.kernel.ip_mc_check_igmp p < 0
        · exact ⟨NF_DROP, s, by simp [nf_downstream_rcv, hp, hneg]⟩
        · by_cases ht : (igmp_hdr d.kernel.endian p).type = IGMP_HOST_MEMBERSHIP_REPORT ∨
              (igmp_hdr d.kernel.endian p).type = IGMPV2_HOST_MEMBERSHIP_REPORT
          · cases hm : ipv4_is_multicast d.kernel.endian (igmp_hdr d.kernel.endian p).group with
            | false =>
              exact ⟨NF_ACCEPT, (s.pr .received_report).pr .drop_report_invalid_group,
                by simp [nf_downstream_rcv, hp, hneg, ht, nf_downstream_report, hm]⟩
            | true =>
              obtain ⟨s2, h2⟩ := router_add_route_returns d.kernel
                (ntohl d.kernel.endian (igmp_hdr d.kernel.endian p).group)
                ((s.pr .received_report).pr .insert_group) hz
              exact ⟨NF_ACCEPT, s2, by
                simp [nf_downstream_rcv, hp, hneg, ht,
                  nf_downstream_report_multicast _ _ _ _ hm, h2]⟩
          · by_cases hl : (igmp_hdr d.kernel.endian p).type = IGMP_HOST_LEAVE_MESSAGE
            · have hk : ¬ (IGMP_HOST_LEAVE_MESSAGE = IGMP_HOST_MEMBERSHIP_REPORT ∨
                  IGMP_HOST_LEAVE_MESSAGE = IGMPV2_HOST_MEMBERSHIP_REPORT) := by
                decide
              exact ⟨NF_ACCEPT, nf_downstream_leave d.kernel down p.iph.saddr
                (igmp_hdr d.kernel.endian p).group (s.pr .host_leave),
                by simp [nf_downstream_rcv, hp, hneg, hl, hk]⟩
            · exact ⟨NF_ACCEPT, s.pr .ignoring_unknown_type,
                by simp [nf_downstream_rcv, hp, hneg, ht, hl]⟩
      · exact ⟨NF_ACCEPT, s, by simp [nf_downstream_rcv, hp]⟩

/-- Every state of a trajectory keeps the routes of its first state. -/
theorem trajectory_keeps_routes (down : net_device) (ds : List Delivery) :
    ∀ s : State, ∀ s1 ∈ trajectory down ds s,
      ∀ G, router_lookup s G ≠ none → router_lookup s1 G ≠ none := by
  induction ds with
  | nil =>
    intro s s1 hs1 G hG
    simp only [trajectory, List.mem_singleton] at hs1
    rw [hs1]
    exact hG
  | cons d rest ih =>
    intro s s1 hs1 G hG
    simp only [trajectory, List.mem_cons] at hs1
    rcases hs1 with h | h
    · rw [h]
      exact hG
    · cases hd : deliver down d s with
      | error f => simp [hd] at h
      | ok r =>
        obtain ⟨v, s2⟩ := r
        simp only [hd] at h
        exact ih s2 s1 h G (deliver_keeps_routes down d s s2 v hd G hG)

/-- Every state of a trajectory of packets made of bytes has only class-D
keys when the first state has. -/
theorem trajectory_keeps_class_d (down : net_device) (ds : List Delivery)
    (hb : ∀ d ∈ ds, d.wf = true) :
    ∀ s : State, (∀ key ∈ route_keys s.route_table, class_d key) →
      ∀ s1 ∈ trajectory down ds s, ∀ key ∈ route_keys s1.route_table, class_d key := by
  induction ds with
  | nil =>
    intro s hs s1 hs1
    simp only [trajectory, List.mem_singleton] at hs1
    rw [hs1]
    exact hs
  | cons d rest ih =>
    intro s hs s1 hs1
    simp only [trajectory, List.mem_cons] at hs1
    rcases hs1 with h | h
    · rw [h]
      exact hs
    · cases hd : deliver down d s with
      | error f => simp [hd] at h
      | ok r =>
        obtain ⟨v, s2⟩ := r
        simp only [hd] at h
        have hwf : d.wf = true := hb d (List.mem_cons_self _ _)
        have hbytes : ∀ p, d.rx.skb = some p → bytes_ok p.transport := by
          intro p hp b hmem
          simp only [Delivery.wf, hp, List.all_eq_true, decide_eq_true_eq] at hwf
          exact hwf b hmem
        exact ih (fun d2 h2 => hb d2 (List.mem_cons_of_mem _ h2)) s2
          (deliver_keeps_class_d down d s s2 v hd hbytes hs) s1 h

/-- C16: along every finite sequence of deliveries to `nf_upstream_rcv` and
`nf_downstream_rcv`, from every state and whatever the kernel answers, a group
for which `router_lookup` returns a route in one state of the run has a route
in every later state; and the run handles every delivery (it has one state
more than there are deliveries) when `kzalloc` and `skb_clone` return a buffer. -/
theorem routes_never_expire (down : net_device) (ds : List Delivery) (s : State) :
    List.Pairwise
      (fun a b : State => ∀ G, router_lookup a G ≠ none → router_lookup b G ≠ none)
      (trajectory down ds s) ∧
    ((∀ d ∈ ds, d.kernel.kzalloc_ok = true ∧ d.kernel.skb_clone_ok = true) →
      (trajectory down ds s).length = ds.length + 1) := by
  constructor
  · induction ds generalizing s with
    | nil => simp [trajectory]
    | cons d rest ih =>
      simp only [trajectory, List.pairwise_cons]
      cases hd : deliver down d s with
      | error f => simp
      | ok r =>
        obtain ⟨v, s2⟩ := r
        refine ⟨fun b hb G hG => ?_, ih s2⟩
        exact trajectory_keeps_routes down rest s2 b hb G
          (deliver_keeps_routes down d s s2 v hd G hG)
  · induction ds generalizing s with
    | nil =>
      intro _
      rfl
    | cons d rest ih =>
      intro hall
      obtain ⟨hz, hc⟩ := hall d (List.mem_cons_self _ _)
      obtain ⟨v, s2, h2⟩ := deliver_returns down d s hz hc
      simp only [trajectory, h2, List.length_cons]
      rw [ih s2 (fun d2 hd2 => hall d2 (List.mem_cons_of_mem _ hd2))]

/-- C16 at the sample deliveries on a little-endian host, from a table that
holds 224.0.0.251. -/
theorem routes_never_expire_witness :
    (∀ d ∈ sample_deliveries .little,
      d.kernel.kzalloc_ok = true ∧ d.kernel.skb_clone_ok = true) ∧
    List.Pairwise
      (fun a b : State => ∀ G, router_lookup a G ≠ none → router_lookup b G ≠ none)
      (trajectory dev_down (sample_deliveries .little) state_one) ∧
    (trajectory dev_down (sample_deliveries .little) state_one).length
      = (sample_deliveries .little).length + 1 :=
  ⟨by decide,
    (routes_never_expire dev_down (sample_deliveries .little) state_one).1,
    (routes_never_expire dev_down (sample_deliveries .little) state_one).2 (by decide)⟩

/-- C18: from the empty table a successful `router_init` leaves, after any
finite sequence of deliveries of packets made of bytes to `nf_upstream_rcv`
and `nf_downstream_rcv`, whatever the kernel answers, every key of the route
table in every state of the run lies in 0xe0000000 .. 0xefffffff. -/
theorem only_multicast_keys (down : net_device) (k0 : Kernel) (s0 : State)
    (ds : List Delivery) (h0 : k0.rhashtable_init_ret = 0) (hb : ∀ d ∈ ds, d.wf = true) :
    (router_init k0 s0).1 = 0 ∧ (router_init k0 s0).2.route_table = [] ∧
    ∀ s1 ∈ trajectory down ds (router_init k0 s0).2,
      ∀ key ∈ route_keys s1.route_table, 0xe0000000 ≤ key ∧ key ≤ 0xefffffff := by
  have hinit : (router_init k0 s0).2.route_table = [] := by
    simp [router_init, h0]
  refine ⟨by simp [router_init, h0], hinit, ?_⟩
  apply trajectory_keeps_class_d down ds hb
  intro key hk
  rw [hinit] at hk
  simp [route_keys] at hk

/-- C18 at the sample deliveries on a little-endian host. -/
theorem only_multicast_keys_witness :
    (kernel_ok .little).rhashtable_init_ret = 0 ∧
    (∀ d ∈ sample_deliveries .little, d.wf = true) ∧
    (router_init (kernel_ok .little) state_one).1 = 0 ∧
    (router_init (kernel_ok .little) state_one).2.route_table = [] ∧
    ∀ s1 ∈ trajectory dev_down (sample_deliveries .little)
        (router_init (kernel_ok .little) state_one).2,
      ∀ key ∈ route_keys s1.route_table, 0xe0000000 ≤ key ∧ key ≤ 0xefffffff :=
  ⟨rfl, by decide,
    only_multicast_keys dev_down (kernel_ok .little) state_one (sample_deliveries .little)
      rfl (by decide)⟩

end Kmbridge
